import Mathlib

/-!
Verification development for the disability-authorizations spreadsheet
formatter (two pipeline variants: the `10415` formatter and the gehs quick
report formatter).  The Python sources are shallowly embedded: cells are
`Option String` (with `none` playing the role of a missing/NaN cell), data
frames are a column-label list plus positional rows, and the spreadsheet
renderer is modelled as sequential updates of a cell-state map together
with the running bounds of the created-cell rectangle (the library
`ws.dimensions` / `ws.max_row` notion).  Regular-expression tests from the
sources are embedded as executable character-list matchers.
-/

namespace Authz

/-! ## Character and character-list utilities -/

/-- ASCII lower-casing of one character, as `str.lower` acts on the labels
appearing here (all relevant text is ASCII). -/
def toLowerChar (c : Char) : Char :=
  if 65 ≤ c.toNat ∧ c.toNat ≤ 90 then Char.ofNat (c.toNat + 32) else c

def lowerList (l : List Char) : List Char := l.map toLowerChar

/-- Whitespace characters recognised by `str.strip`, `str.split` and the
regex class used in the sources. -/
def isSpaceChar (c : Char) : Bool :=
  decide (c.toNat = 32 ∨ c.toNat = 9 ∨ c.toNat = 10 ∨ c.toNat = 13 ∨
          c.toNat = 11 ∨ c.toNat = 12)

/-- Word characters for the regex word-boundary tests in the sources. -/
def isWordChar (c : Char) : Bool :=
  decide ((65 ≤ c.toNat ∧ c.toNat ≤ 90) ∨ (97 ≤ c.toNat ∧ c.toNat ≤ 122) ∨
          (48 ≤ c.toNat ∧ c.toNat ≤ 57) ∨ c.toNat = 95)

def isDigitChar (c : Char) : Bool := decide (48 ≤ c.toNat ∧ c.toNat ≤ 57)

def dropWs (l : List Char) : List Char := l.dropWhile isSpaceChar

/-- Python `str.strip`: drop leading and trailing whitespace. -/
def stripL (l : List Char) : List Char := ((dropWs l).reverse.dropWhile isSpaceChar).reverse

def startsWithL : List Char → List Char → Bool
  | [], _ => true
  | _ :: _, [] => false
  | p :: ps, c :: cs => p == c && startsWithL ps cs

/-- Substring containment (regex `search` of a literal pattern). -/
def containsSub (pat : List Char) : List Char → Bool
  | [] => startsWithL pat []
  | c :: cs => startsWithL pat (c :: cs) || containsSub pat cs

/-- True when the list is empty or starts with a non-word character; the
right half of a regex word-boundary test. -/
def nonWordHead : List Char → Bool
  | [] => true
  | c :: _ => !isWordChar c

/-- Auxiliary scan for a word-bounded occurrence of `pat`; `prev` is the
character immediately before the current position, if any. -/
def containsWordAux (pat : List Char) : Option Char → List Char → Bool
  | _, [] => false
  | prev, c :: cs =>
    ((match prev with
      | none => true
      | some q => !isWordChar q) &&
      startsWithL pat (c :: cs) && nonWordHead ((c :: cs).drop pat.length)) ||
    containsWordAux pat (some c) cs

/-- Occurrence of the literal `pat` surrounded by regex word boundaries,
as in the source patterns of the shape `\bpid\b`. -/
def containsWordB (pat : List Char) (s : List Char) : Bool := containsWordAux pat none s

/-- Occurrence of literal `a`, then any run of whitespace, then literal `b`
(the source patterns of the shape `a\s*b`).  Since the patterns used never
begin `b` with a whitespace character, the greedy skip of all whitespace is
exact. -/
def seqWsHere (a b s : List Char) : Bool :=
  startsWithL a s && startsWithL b (dropWs (s.drop a.length))

def containsSeqWs (a b : List Char) : List Char → Bool
  | [] => seqWsHere a b []
  | c :: cs => seqWsHere a b (c :: cs) || containsSeqWs a b cs

/-- Occurrence of literal `a` followed, anywhere later, by literal `b`
(the gehs source pattern `authorization.*date`; the labels mapped here
contain no newline, so the `.` class is unrestricted in the model). -/
def containsThen (a b : List Char) : List Char → Bool
  | [] => false
  | c :: cs =>
    (startsWithL a (c :: cs) && containsSub b ((c :: cs).drop a.length)) ||
    containsThen a b cs

/-- Index enumeration starting from `j`, mirroring `enumerate(xs, start=j)`. -/
def enumFromL {α : Type} (j : Nat) : List α → List (Nat × α)
  | [] => []
  | a :: as => (j, a) :: enumFromL (j + 1) as

/-- The list `[a, a+1, ..., a+n-1]`. -/
def countUp (a : Nat) : Nat → List Nat
  | 0 => []
  | n + 1 => a :: countUp (a + 1) n

/-- Python `range(a, b + 1)` as an inclusive integer interval. -/
def natsFromTo (a b : Nat) : List Nat := countUp a (b + 1 - a)

/-- First index at which `p` holds, if any. -/
def firstIdxWhere {α : Type} (p : α → Bool) : List α → Option Nat
  | [] => none
  | a :: as => if p a then some 0 else (firstIdxWhere p as).map (· + 1)

/-- First index of the greatest element together with that element
(`Series.idxmax` with ties resolved to the lowest index). -/
def argmaxFirst : List Nat → Option (Nat × Nat)
  | [] => none
  | x :: xs =>
    match argmaxFirst xs with
    | none => some (0, x)
    | some (i, v) => if v > x then some (i + 1, v) else some (0, x)

/-- `idxmax` over a boolean series: first index of the maximum after the
usual `False < True` ordering. -/
def idxmaxB (l : List Bool) : Option Nat :=
  (argmaxFirst (l.map fun b => if b then 1 else 0)).map Prod.fst

/-- Python `str.split()` with no separator: split on whitespace runs,
producing no empty tokens. -/
def tokensGo : List Char → List Char → List (List Char)
  | cur, [] => if cur.isEmpty then [] else [cur.reverse]
  | cur, c :: cs =>
    if isSpaceChar c then
      if cur.isEmpty then tokensGo [] cs else cur.reverse :: tokensGo [] cs
    else tokensGo (c :: cur) cs

def tokens (l : List Char) : List (List Char) := tokensGo [] l

/-- Python `" ".join(...)` over token lists. -/
def joinSpaces : List (List Char) → List Char
  | [] => []
  | [t] => t
  | t :: ts => t ++ ' ' :: joinSpaces ts

/-- Split on a separator character, mirroring `str.split(sep)`. -/
def splitOnChar (sep : Char) : List Char → List (List Char)
  | [] => [[]]
  | c :: cs =>
    let r := splitOnChar sep cs
    if c == sep then [] :: r
    else
      match r with
      | [] => [[c]]
      | h :: t => (c :: h) :: t

/-- Sequential effectful map over a list, stopping at the first error, as a
Python loop that may raise does. -/
def mapExcept {α β ε : Type} (f : α → Except ε β) : List α → Except ε (List β)
  | [] => Except.ok []
  | a :: as =>
    match f a with
    | Except.error e => Except.error e
    | Except.ok b =>
      match mapExcept f as with
      | Except.error e => Except.error e
      | Except.ok bs => Except.ok (b :: bs)

/-! ## Cells, grids and data frames -/

/-- A spreadsheet cell: `none` is a missing value (NaN), `some s` a textual
value.  The pipelines treat every populated cell through `str`, so text
suffices for the embedded behavior. -/
abbrev Cell := Option String

/-- The raw untyped grid read with `header=None`. -/
abbrev Grid := List (List Cell)

/-- `astype(str)` rendering of one cell: pandas renders NaN as the string
`nan`. -/
def cellToStr (c : Cell) : String :=
  match c with
  | none => "nan"
  | some s => s

/-- A data frame: column labels plus positionally aligned rows. -/
structure DF where
  cols : List String
  rows : List (List Cell)
deriving Repr, DecidableEq

def cellIn (r : List Cell) (i : Nat) : Cell := (r.get? i).getD none

/-- First positional index of a column label, `list(df.columns).index(n)`
with default 0 (callers guard membership first, as the sources do). -/
def colIndexOf (df : DF) (n : String) : Nat :=
  (firstIdxWhere (fun c => c == n) df.cols).getD 0

/-- Value of column `n` in row `k`. -/
def lookupCol (df : DF) (n : String) (k : Nat) : Option Cell :=
  (df.rows.get? k).map (fun r => cellIn r (colIndexOf df n))

/-! ## Column normalizer (`_rename_columns` in the two sources) -/

/-- Canonical label mapping of the 10415 formatter, embedding the regex
rule chain of its `_rename_columns` (patterns are matched case-insensitively
against the stripped label; order of the chain is as in the source). -/
def canonLabel10415 (label : String) : String :=
  let s := stripL label.data
  let ls := lowerList s
  if containsSeqWs "authorization:".data "regarding my child".data ls then "Child Name"
  else if containsSeqWs "authorization:".data "date".data ls then "Authorization Date"
  else if containsSeqWs "iep/ifsp".data "dis:identified".data ls then "Disability Identified"
  else if containsSeqWs "primary".data "disability".data ls then "Primary Disability"
  else if containsWordB "center name".data ls || containsWordB "center".data ls then "Center"
  else if containsWordB "class name".data ls || containsWordB "class".data ls then "Class"
  else if containsWordB "participant pid".data ls || containsWordB "pid".data ls then "PID"
  else if containsWordB "first name".data ls then "First Name"
  else if containsWordB "last name".data ls then "Last Name"
  else String.mk s

def renameColumns10415 (cols : List String) : List String := cols.map canonLabel10415

def renameDF10415 (df : DF) : DF := { df with cols := renameColumns10415 df.cols }

/-- Canonical label mapping of the gehs quick report formatter. -/
def canonLabelGehs (label : String) : String :=
  let s := stripL label.data
  let ls := lowerList s
  if containsSub "participant pid".data ls then "PID"
  else if containsSub "participant first name".data ls then "First Name"
  else if containsSub "participant last name".data ls then "Last Name"
  else if containsSub "center name".data ls then "Center"
  else if containsSub "class name".data ls then "Class"
  else if containsThen "authorization".data "date".data ls then "Authorization Date"
  else String.mk s

def renameColumnsGehs (cols : List String) : List String := cols.map canonLabelGehs

def renameDFGehs (df : DF) : DF := { df with cols := renameColumnsGehs df.cols }

/-- The canonical controlled vocabulary named by the spec. -/
def canonicalVocab : List String :=
  ["PID", "First Name", "Last Name", "Center", "Class", "Authorization Date",
   "Disability Identified", "Primary Disability", "Child Name"]

/-! ## Header detector -/

/-- First cell of a row; a missing first column is a NaN cell. -/
def firstCellOf (r : List Cell) : Cell :=
  match r with
  | [] => none
  | c :: _ => c

/-- The normalised first-column text the detectors scan:
`astype(str).str.strip().str.lower()`. -/
def normFirstCol (r : List Cell) : List Char :=
  lowerList (stripL (cellToStr (firstCellOf r)).data)

def childMarker (s : List Char) : Bool :=
  containsSeqWs "authorization:".data "regarding my child".data s

def pidMarker (s : List Char) : Bool := containsSub "participant pid".data s

/-- Count of non-NaN cells in a row (`notna().sum(axis=1)`). -/
def notNaCount (r : List Cell) : Nat := (r.filter (fun c => c.isSome)).length

/-- Header detection of the 10415 formatter: first first-column match of the
child-authorization marker, else of `participant pid`, else the first row of
greatest non-NaN density; `none` only for an empty grid (where the pandas
`idxmax` would raise). -/
def detectHeaderRow10415 (g : Grid) : Option Nat :=
  let fc := g.map normFirstCol
  let s1 := fc.map childMarker
  if s1.any id then idxmaxB s1
  else
    let s2 := fc.map pidMarker
    if s2.any id then idxmaxB s2
    else (argmaxFirst (g.map notNaCount)).map Prod.fst

/-- Count of cells whose `astype(str)` rendering contains the literal
`ST:` (case-sensitively, no stripping), per the gehs fallback. -/
def stColonCount (r : List Cell) : Nat :=
  (r.filter (fun c => containsSub "ST:".data (cellToStr c).data)).length

/-- Header detection of the gehs formatter: first first-column match of
`participant pid`, else the first row of greatest `ST:`-cell count. -/
def detectHeaderRowGehs (g : Grid) : Option Nat :=
  let s2 := (g.map normFirstCol).map pidMarker
  if s2.any id then idxmaxB s2
  else (argmaxFirst (g.map stColonCount)).map Prod.fst

/-- Header index as the claim words it: the first first-column cell matching
the child-authorization marker; else the first matching `participant pid`;
else a row of greatest non-empty count, ties to the lowest index. -/
def claimedHeaderIdx (g : Grid) : Option Nat :=
  match firstIdxWhere (fun r => childMarker (normFirstCol r)) g with
  | some i => some i
  | none =>
    match firstIdxWhere (fun r => pidMarker (normFirstCol r)) g with
    | some i => some i
    | none =>
      let m := (g.map notNaCount).foldr max 0
      firstIdxWhere (fun r => decide (m ≤ notNaCount r)) g

/-- Header index of the gehs detector as the amended claim words it: the
first first-column `participant pid` match, else the first row with the
greatest count of cells containing `ST:`. -/
def claimedHeaderIdxGehs (g : Grid) : Option Nat :=
  match firstIdxWhere (fun r => pidMarker (normFirstCol r)) g with
  | some i => some i
  | none =>
    let m := (g.map stColonCount).foldr max 0
    firstIdxWhere (fun r => decide (m ≤ stColonCount r)) g

/-! ## Name splitter (`_split_child_name`, 10415 formatter only) -/

/-- Per-cell body of `split_name`: a NaN cell yields two empty fields; one
token becomes the First Name; with two or more tokens the last is the Last
Name and the rest are rejoined.  With zero tokens from a non-NaN string the
source evaluates `parts[-1]` on an empty list, which raises `IndexError`;
this is the `Except.error` case. -/
def splitName (v : Cell) : Except Unit (String × String) :=
  match v with
  | none => Except.ok ("", "")
  | some s =>
    let parts := tokens s.data
    if parts.length = 1 then Except.ok (String.mk (parts.headD []), "")
    else
      match parts.getLast? with
      | none => Except.error ()
      | some lastTok =>
        Except.ok (String.mk (joinSpaces parts.dropLast), String.mk lastTok)

/-- The `_split_child_name` step: when a `Child Name` column exists, the
split is computed for every row, and each of `First Name` / `Last Name` is
appended (in that order) only when absent beforehand. -/
def splitChildName (df : DF) : Except Unit DF :=
  if df.cols.contains "Child Name" then
    match mapExcept (fun r => splitName (cellIn r (colIndexOf df "Child Name"))) df.rows with
    | Except.error e => Except.error e
    | Except.ok pairs =>
      let needF : Bool := !(df.cols.contains "First Name")
      let needL : Bool := !(df.cols.contains "Last Name")
      Except.ok
        { cols := df.cols ++ (if needF then ["First Name"] else []) ++
            (if needL then ["Last Name"] else []),
          rows := (df.rows.zip pairs).map (fun rp =>
            rp.1 ++ (if needF then [some rp.2.1] else []) ++
              (if needL then [some rp.2.2] else [])) }
  else Except.ok df

/-! ## Date normalizer -/

def digitChar (n : Nat) : Char := Char.ofNat (48 + n % 10)

/-- Zero-padded two-digit rendering (`%m`, `%d`) for values below 100. -/
def pad2L (n : Nat) : List Char := [digitChar (n / 10), digitChar n]

/-- Zero-padded four-digit rendering (`%Y`) for values below 10000. -/
def pad4L (y : Nat) : List Char :=
  [digitChar (y / 1000), digitChar (y / 100), digitChar (y / 10), digitChar y]

/-- `strftime("%m/%d/%Y")` on a parsed date. -/
def fmtMDY (m d y : Nat) : String :=
  String.mk (pad2L m ++ '/' :: (pad2L d ++ '/' :: pad4L y))

def parseNatL (l : List Char) : Option Nat :=
  if l.isEmpty then none
  else if l.all isDigitChar then
    some (l.foldl (fun a c => a * 10 + (c.toNat - 48)) 0)
  else none

def leapYear (y : Nat) : Bool :=
  decide (y % 4 = 0 ∧ (y % 100 ≠ 0 ∨ y % 400 = 0))

def daysInMonth (y m : Nat) : Nat :=
  if m = 2 then (if leapYear y then 29 else 28)
  else if m = 4 ∨ m = 6 ∨ m = 9 ∨ m = 11 then 30
  else 31

/-- Calendar validity plus the representable-year range of the library
timestamp type (years 1678 to 2261 are safely in range). -/
def validYMD (y m d : Nat) : Bool :=
  decide (1678 ≤ y ∧ y ≤ 2261 ∧ 1 ≤ m ∧ m ≤ 12 ∧ 1 ≤ d) &&
    decide (d ≤ daysInMonth y m)

/-- Modelled from the spec: the sources delegate date parsing to the data
library (`to_datetime` with `errors="coerce"`), which is outside this
repository.  Per the spec this is a permissive parse of common encodings;
the model accepts the two encodings the spec names, ISO `YYYY-MM-DD` and US
`MM/DD/YYYY`, after stripping surrounding whitespace, with calendar and
range validation; everything else fails to parse. -/
def parseDateModel (s : String) : Option (Nat × Nat × Nat) :=
  let t := stripL s.data
  match splitOnChar '-' t with
  | [ys, ms, ds] =>
    match parseNatL ys, parseNatL ms, parseNatL ds with
    | some y, some m, some d =>
      if decide (ys.length = 4 ∧ ms.length ≤ 2 ∧ ds.length ≤ 2) && validYMD y m d
      then some (y, m, d) else none
    | _, _, _ => none
  | _ =>
    match splitOnChar '/' t with
    | [ms, ds, ys] =>
      match parseNatL ms, parseNatL ds, parseNatL ys with
      | some m, some d, some y =>
        if decide (ys.length = 4 ∧ ms.length ≤ 2 ∧ ds.length ≤ 2) && validYMD y m d
        then some (y, m, d) else none
      | _, _, _ => none
    | _ => none

/-- The coerced per-cell parse: a NaN cell coerces to NaT. -/
def toDatetimeCell (c : Cell) : Option (Nat × Nat × Nat) :=
  match c with
  | none => none
  | some s => parseDateModel s

/-- The per-cell date normalisation of both renderers:
`to_datetime(..., errors="coerce").strftime("%m/%d/%Y").fillna("")`.  Total
by construction, mirroring the never-raising coerce-then-fill composition in
the sources. -/
def normalizeDateCell (c : Cell) : String :=
  match toDatetimeCell c with
  | some (y, m, d) => fmtMDY m d y
  | none => ""

/-- Column-wise date normalisation guarded on the presence of the
`Authorization Date` column, as at the top of both renderers. -/
def normalizeDatesDF (df : DF) : DF :=
  match firstIdxWhere (fun c => c == "Authorization Date") df.cols with
  | none => df
  | some di =>
    { df with rows := df.rows.map (fun r =>
        (enumFromL 0 r).map (fun jc =>
          if jc.1 = di then some (normalizeDateCell jc.2) else jc.2)) }

/-! ## Reading, blank-row removal and projection -/

def gridWidth (g : Grid) : Nat := g.foldr (fun r m => max r.length m) 0

/-- Pad a row with NaN cells to the sheet width, as the rectangular frame
returned by the reader does. -/
def padTo (w : Nat) (r : List Cell) : List Cell :=
  r ++ List.replicate (w - r.length) none

/-- Column label taken from a header cell; a NaN header cell is named
`Unnamed: j` by the reader. -/
def headerName (j : Nat) (c : Cell) : String :=
  match c with
  | some s => s
  | none => "Unnamed: " ++ toString j

/-- `read_excel(..., header=h)`: row `h` provides the labels and the rows
strictly below it provide the data. -/
def readWithHeader (g : Grid) (h : Nat) : DF :=
  let w := gridWidth g
  { cols := (enumFromL 0 (padTo w (g.getD h []))).map (fun jc => headerName jc.1 jc.2),
    rows := (g.drop (h + 1)).map (padTo w) }

def allNaRow (r : List Cell) : Bool := r.all (fun c => c.isNone)

/-- `dropna(how="all")`: drop rows whose cells are all NaN. -/
def dropAllNa (df : DF) : DF :=
  { df with rows := df.rows.filter (fun r => !(allNaRow r)) }

/-- The fixed preferred column order of the 10415 formatter. -/
def preferredCols10415 : List String :=
  ["PID", "First Name", "Last Name", "Center", "Class",
   "Authorization Date", "Disability Identified", "Primary Disability"]

/-- The fixed desired column order of the gehs formatter. -/
def desiredColsGehs : List String :=
  ["PID", "First Name", "Last Name", "Center", "Class", "Authorization Date"]

/-- `[c for c in preferred if c in df.columns]`. -/
def existingCols (pref : List String) (df : DF) : List String :=
  pref.filter (fun c => df.cols.contains c)

/-- Label-based column selection `df[names]`; duplicate-free labels are
guaranteed upstream by the reader (which mangles duplicate header labels),
so the first index of each label is the selected one. -/
def selectCols (names : List String) (df : DF) : DF :=
  { cols := names,
    rows := df.rows.map (fun r => names.map (fun n => cellIn r (colIndexOf df n))) }

/-- Projection onto the preferred order intersected with present columns. -/
def projectWith (pref : List String) (df : DF) : DF :=
  selectCols (existingCols pref df) df

/-- Normaliser pipeline of the gehs formatter after header detection:
read, drop blank rows, rename, project. -/
def normalizeGehs (g : Grid) (h : Nat) : DF :=
  projectWith desiredColsGehs (renameDFGehs (dropAllNa (readWithHeader g h)))

/-! ## Renderer model

The worksheet is a map from (row, column) positions (1-indexed) to cell
states, together with the bounds rectangle of every cell created so far:
the library reports that rectangle as `ws.dimensions` and its edges as
`ws.max_row` / `ws.max_column` (1 on an empty sheet).  Styling assignments
replace whole style objects, exactly as `cell.font = Font(...)` does. -/

structure FontSpec where
  bold : Bool
  color : Option String
  size : Option Nat
deriving Repr, DecidableEq

/-- Border of one cell; each flag is true when that edge uses the medium
weight rather than thin. -/
structure BorderSpec where
  leftMed : Bool
  rightMed : Bool
  topMed : Bool
  bottomMed : Bool
deriving Repr, DecidableEq

structure CellState where
  value : Cell
  fill : Option String
  font : Option FontSpec
  centered : Bool
  border : Option BorderSpec
deriving Repr, DecidableEq

def blankCell : CellState :=
  { value := none, fill := none, font := none, centered := false, border := none }

/-- Bounds rectangle `(minRow, minCol, maxRow, maxCol)` of created cells. -/
abbrev Rect := Nat × Nat × Nat × Nat

structure WS where
  cells : Nat × Nat → CellState
  bounds : Option Rect

def emptyWS : WS := { cells := fun _ => blankCell, bounds := none }

def touchB (b : Option Rect) (r c : Nat) : Option Rect :=
  match b with
  | none => some (r, c, r, c)
  | some (a, b', x, y) => some (min a r, min b' c, max x r, max y c)

/-- Access/creation of one cell with a state update; every library cell
access creates the cell, so the bounds always grow. -/
def updateCell (ws : WS) (r c : Nat) (f : CellState → CellState) : WS :=
  { cells := fun p => if p = (r, c) then f (ws.cells p) else ws.cells p,
    bounds := touchB ws.bounds r c }

def setValue (ws : WS) (r c : Nat) (v : Cell) : WS :=
  updateCell ws r c (fun s => { s with value := v })

def setFill (ws : WS) (r c : Nat) (col : String) : WS :=
  updateCell ws r c (fun s => { s with fill := some col })

def setFont (ws : WS) (r c : Nat) (f : FontSpec) : WS :=
  updateCell ws r c (fun s => { s with font := some f })

def setCentered (ws : WS) (r c : Nat) : WS :=
  updateCell ws r c (fun s => { s with centered := true })

def setBorder (ws : WS) (r c : Nat) (b : BorderSpec) : WS :=
  updateCell ws r c (fun s => { s with border := some b })

def touchCell (ws : WS) (r c : Nat) : WS := updateCell ws r c id

def wsMaxRow (ws : WS) : Nat :=
  match ws.bounds with
  | none => 1
  | some (_, _, mr, _) => mr

def wsMaxCol (ws : WS) : Nat :=
  match ws.bounds with
  | none => 1
  | some (_, _, _, mc) => mc

/-- Write one data row: `ws.cell(row=r, column=j, value=v)` for each value,
columns numbered from 1. -/
def writeRow (ws : WS) (r : Nat) (cs : List Cell) : WS :=
  (enumFromL 1 cs).foldl (fun w jv => setValue w r jv.1 jv.2) ws

/-- Write data rows with row numbers starting at `start`. -/
def writeRowsFrom (ws : WS) (start : Nat) (rows : List (List Cell)) : WS :=
  (enumFromL start rows).foldl (fun w ir => writeRow w ir.1 ir.2) ws

def BLUE10415 : String := "1F4E78"
def BLUEGEHS : String := "4472C4"
def WHITE : String := "FFFFFF"
def GREEN : String := "008000"
def RED : String := "C00000"

/-- Header row of the 10415 renderer, written at row 3: value, bold white
font, solid dark blue fill, centered. -/
def writeHeader10415 (ws : WS) (cols : List String) : WS :=
  (enumFromL 1 cols).foldl (fun w jc =>
    let w := setValue w 3 jc.1 (some jc.2)
    let w := setFont w 3 jc.1 { bold := true, color := some WHITE, size := none }
    let w := setFill w 3 jc.1 BLUE10415
    setCentered w 3 jc.1) ws

/-- Header styling of the gehs renderer: row 2 cells (already written by the
frame dump) get solid blue fill, bold white font and centering, over columns
1 through the current `max_column`. -/
def styleHeaderGehs (ws0 : WS) : WS :=
  (natsFromTo 1 (wsMaxCol ws0)).foldl (fun w j =>
    let w := setFill w 2 j BLUEGEHS
    let w := setFont w 2 j { bold := true, color := some WHITE, size := none }
    setCentered w 2 j) ws0

/-- Title block: merge the title row across `ncols` columns (creating those
cells) and write the bold size-14 centered title into its first cell. -/
def mergeTitleRow (ws0 : WS) (row ncols : Nat) (title : String) : WS :=
  let w := (natsFromTo 1 ncols).foldl (fun w c => touchCell w row c) ws0
  let w := setValue w row 1 (some title)
  let w := setFont w row 1 { bold := true, color := none, size := some 14 }
  setCentered w row 1

def borderSpecFor (topRow maxR maxC r c : Nat) : BorderSpec :=
  { leftMed := c == 1, rightMed := c == maxC, topMed := r == topRow,
    bottomMed := r == maxR }

/-- Border grid: thin borders everywhere in the rectangle from `topRow` to
the current last row across all columns, medium on the outer edges.  The
loop bounds are read from the sheet once, before the loop, as in the
sources. -/
def applyBorders (ws0 : WS) (topRow : Nat) : WS :=
  let maxR := wsMaxRow ws0
  let maxC := wsMaxCol ws0
  (natsFromTo topRow maxR).foldl (fun w r =>
    (natsFromTo 1 maxC).foldl (fun w' c =>
      setBorder w' r c (borderSpecFor topRow maxR maxC r c)) w) ws0

/-- Emptiness test of the 10415 date styling: `val in (None, "")`. -/
def emptyVal10415 (v : Cell) : Bool :=
  match v with
  | none => true
  | some s => s == ""

/-- Emptiness test of the gehs date styling, which strips string values
first. -/
def emptyValGehs (v : Cell) : Bool :=
  match v with
  | none => true
  | some s => (stripL s.data).isEmpty

/-- Authorization-date conditional styling: over data rows (from `startRow`
to the current last row), an empty date cell becomes a bold red centered
`✗` marker and a populated one gets a green font. -/
def dateStyleWith (emptyTest : Cell → Bool) (startRow : Nat) (ws0 : WS)
    (cols : List String) : WS :=
  match firstIdxWhere (fun c => c == "Authorization Date") cols with
  | none => ws0
  | some i =>
    let di := i + 1
    (natsFromTo startRow (wsMaxRow ws0)).foldl (fun w r =>
      if emptyTest ((w.cells (r, di)).value) then
        let w := setValue w r di (some "✗")
        let w := setFont w r di { bold := true, color := some RED, size := none }
        setCentered w r di
      else setFont w r di { bold := false, color := some GREEN, size := none }) ws0

/-- The produced artifact: final cell states and bounds, the captured
autofilter rectangle, the freeze boundary row (first unfrozen row) and the
sheet name. -/
structure Workbook where
  cells : Nat × Nat → CellState
  bounds : Option Rect
  filterRef : Option Rect
  freezeRow : Nat
  sheetName : String

/-- The 10415 renderer `_build_workbook` (the best-effort logo embedding
touches no cell and is omitted; column autosizing only assigns presentation
widths and is likewise omitted): normalise dates, write the styled header at
row 3, data from row 4, merged title at row 2, borders from row 2, freeze at
`A4`, capture the autofilter as the current sheet dimensions, then apply the
date-column conditional styling. -/
def buildWorkbook10415 (df0 : DF) (title : String) : Workbook :=
  let df := normalizeDatesDF df0
  let ws := writeHeader10415 emptyWS df.cols
  let ws := writeRowsFrom ws 4 df.rows
  let ws := mergeTitleRow ws 2 df.cols.length title
  let ws := applyBorders ws 2
  let flt := ws.bounds
  let ws := dateStyleWith emptyVal10415 4 ws df.cols
  { cells := ws.cells, bounds := ws.bounds, filterRef := flt, freezeRow := 4,
    sheetName := "Authorizations" }

/-- The gehs renderer `build_output_workbook`: normalise dates, dump the
frame with the label row at row 2 and data from row 3, freeze at `A3`, style
the header row, capture the autofilter as the current sheet dimensions
(before the title row exists), then write the merged title at row 1, apply
borders from row 1 and the date-column conditional styling. -/
def buildWorkbookGehs (df0 : DF) (title : String) : Workbook :=
  let df := normalizeDatesDF df0
  let ws := writeRow emptyWS 2 (df.cols.map some)
  let ws := writeRowsFrom ws 3 df.rows
  let ws := styleHeaderGehs ws
  let flt := ws.bounds
  let ws := mergeTitleRow ws 1 (wsMaxCol ws) title
  let ws := applyBorders ws 1
  let ws := dateStyleWith emptyValGehs 3 ws df.cols
  { cells := ws.cells, bounds := ws.bounds, filterRef := flt, freezeRow := 3,
    sheetName := "Authorizations" }

/-! ## Main blocks: filename gate and full pipelines -/

/-- Full 10415 processing after the filename gate; `none` marks a run the
source would abort with an uncaught exception (no header detectable in an
empty grid, or the splitter IndexError). -/
def process10415 (title : String) (g : Grid) : Option Workbook :=
  match detectHeaderRow10415 g with
  | none => none
  | some h =>
    let df := renameDF10415 (dropAllNa (readWithHeader g h))
    match splitChildName df with
    | Except.error _ => none
    | Except.ok df2 =>
      some (buildWorkbook10415 (projectWith preferredCols10415 df2) title)

def rejectMsg10415 : String :=
  "Please upload the correct file: filename must include **10415**."

/-- The 10415 main block: the filename must contain `10415` or the run
stops with the rejection message before any reading or processing. -/
def mainRun10415 (fname title : String) (g : Grid) : Except String (Option Workbook) :=
  if containsSub "10415".data fname.data then Except.ok (process10415 title g)
  else Except.error rejectMsg10415

/-- Full gehs processing after the filename gate. -/
def processGehs (title : String) (g : Grid) : Option Workbook :=
  match detectHeaderRowGehs g with
  | none => none
  | some h => some (buildWorkbookGehs (normalizeGehs g h) title)

def rejectMsgGehs : String :=
  "Please upload the correct file: filename must include **10432**."

/-- The gehs main block gate on the `10432` filename token. -/
def mainRunGehs (fname title : String) (g : Grid) : Except String (Option Workbook) :=
  if containsSub "10432".data fname.data then Except.ok (processGehs title g)
  else Except.error rejectMsgGehs

/-! ## Scan lemmas: first-index search and first-argmax -/

theorem firstIdxWhere_nil {α : Type} (p : α → Bool) : firstIdxWhere p [] = none := rfl

theorem firstIdxWhere_cons {α : Type} (p : α → Bool) (a : α) (l : List α) :
    firstIdxWhere p (a :: l) =
      if p a then some 0 else (firstIdxWhere p l).map (· + 1) := rfl

theorem firstIdxWhere_map {α β : Type} (f : α → β) (q : β → Bool) (l : List α) :
    firstIdxWhere q (l.map f) = firstIdxWhere (fun a => q (f a)) l := by
  induction l with
  | nil => rfl
  | cons a l ih => simp [firstIdxWhere_cons, ih]

theorem firstIdxWhere_congr {α : Type} (p q : α → Bool) (l : List α)
    (h : ∀ a, p a = q a) : firstIdxWhere p l = firstIdxWhere q l := by
  induction l with
  | nil => rfl
  | cons a l ih => simp [firstIdxWhere_cons, h, ih]

theorem firstIdxWhere_eq_none_of_any {α : Type} {p : α → Bool} {l : List α}
    (h : l.any p = false) : firstIdxWhere p l = none := by
  induction l with
  | nil => rfl
  | cons a l ih =>
    simp only [List.any_cons, Bool.or_eq_false_iff] at h
    simp [firstIdxWhere_cons, h.1, ih h.2]

theorem firstIdxWhere_isSome_of_any {α : Type} {p : α → Bool} {l : List α}
    (h : l.any p = true) : ∃ i, firstIdxWhere p l = some i := by
  induction l with
  | nil => simp at h
  | cons a l ih =>
    by_cases ha : p a = true
    · exact ⟨0, by simp [firstIdxWhere_cons, ha]⟩
    · simp only [List.any_cons, Bool.or_eq_true] at h
      obtain ⟨i, hi⟩ := ih (h.resolve_left ha)
      exact ⟨i + 1, by simp [firstIdxWhere_cons, ha, hi]⟩

theorem firstIdxWhere_get {α : Type} {p : α → Bool} :
    ∀ {l : List α} {i : Nat}, firstIdxWhere p l = some i →
      ∃ a, l.get? i = some a ∧ p a = true := by
  intro l
  induction l with
  | nil => intro i h; simp [firstIdxWhere_nil] at h
  | cons a l ih =>
    intro i h
    rw [firstIdxWhere_cons] at h
    by_cases ha : p a = true
    · rw [if_pos ha] at h
      cases h
      exact ⟨a, rfl, ha⟩
    · rw [if_neg ha] at h
      cases hfi : firstIdxWhere p l with
      | none => rw [hfi] at h; simp at h
      | some k =>
        rw [hfi] at h
        have hik : k + 1 = i := by simpa using h
        obtain ⟨b, hb, hpb⟩ := ih hfi
        subst hik
        exact ⟨b, hb, hpb⟩

theorem argmaxFirst_cons_none {x : Nat} {xs : List Nat} (h : argmaxFirst xs = none) :
    argmaxFirst (x :: xs) = some (0, x) := by
  simp [argmaxFirst, h]

theorem argmaxFirst_cons_some {x i v : Nat} {xs : List Nat}
    (h : argmaxFirst xs = some (i, v)) :
    argmaxFirst (x :: xs) = if v > x then some (i + 1, v) else some (0, x) := by
  simp [argmaxFirst, h]

theorem argmaxFirst_eq_firstIdx :
    ∀ (l : List Nat), l ≠ [] →
      ∃ i, argmaxFirst l = some (i, l.foldr max 0) ∧
        firstIdxWhere (fun x => decide (l.foldr max 0 ≤ x)) l = some i := by
  intro l
  induction l with
  | nil => intro h; exact absurd rfl h
  | cons a t ih =>
    intro _
    cases t with
    | nil =>
      have hfa : List.foldr max 0 [a] = a := by
        rw [List.foldr_cons, List.foldr_nil]; omega
      refine ⟨0, ?_, ?_⟩
      · rw [@argmaxFirst_cons_none a [] rfl, hfa]
      · rw [firstIdxWhere_cons]
        simp only [hfa]
        rw [if_pos (by simp)]
    | cons b m =>
      obtain ⟨i, hargm, hfirst⟩ := ih (by simp)
      by_cases hgt : (b :: m).foldr max 0 > a
      · have hmax : (a :: b :: m).foldr max 0 = (b :: m).foldr max 0 := by
          rw [List.foldr_cons]
          exact Nat.max_eq_right (Nat.le_of_lt hgt)
        have hpred := firstIdxWhere_congr
          (fun x => decide (List.foldr max 0 (a :: b :: m) ≤ x))
          (fun x => decide (List.foldr max 0 (b :: m) ≤ x))
          (a :: b :: m) (by intro x; rw [hmax])
        refine ⟨i + 1, ?_, ?_⟩
        · rw [argmaxFirst_cons_some hargm, if_pos hgt, hmax]
        · rw [hpred, firstIdxWhere_cons,
            if_neg (by simp only [decide_eq_true_eq]; omega), hfirst]
          rfl
      · have hle : (b :: m).foldr max 0 ≤ a := Nat.not_lt.mp hgt
        have hmax : (a :: b :: m).foldr max 0 = a := by
          rw [List.foldr_cons]
          exact Nat.max_eq_left hle
        have hpred := firstIdxWhere_congr
          (fun x => decide (List.foldr max 0 (a :: b :: m) ≤ x))
          (fun x => decide (a ≤ x))
          (a :: b :: m) (by intro x; rw [hmax])
        refine ⟨0, ?_, ?_⟩
        · rw [argmaxFirst_cons_some hargm, if_neg hgt, hmax]
        · rw [hpred, firstIdxWhere_cons, if_pos (by simp)]

theorem boolNat_foldr_le_one (l : List Bool) :
    (l.map fun b => if b then (1 : Nat) else 0).foldr max 0 ≤ 1 := by
  induction l with
  | nil => simp
  | cons b t ih =>
    rw [List.map_cons, List.foldr_cons]
    refine Nat.max_le.mpr ⟨?_, ih⟩
    cases b <;> simp

theorem boolNat_foldr_eq_one {l : List Bool} (h : l.any id = true) :
    (l.map fun b => if b then (1 : Nat) else 0).foldr max 0 = 1 := by
  induction l with
  | nil => simp at h
  | cons b t ih =>
    rw [List.map_cons, List.foldr_cons]
    cases b with
    | true =>
      rw [show (if true then (1 : Nat) else 0) = 1 from rfl]
      exact Nat.max_eq_left (boolNat_foldr_le_one t)
    | false =>
      simp only [List.any_cons, id_eq, Bool.false_or] at h
      rw [show (if false then (1 : Nat) else 0) = 0 from rfl, ih h]
      omega

theorem idxmaxB_eq_firstIdx {l : List Bool} (h : l.any id = true) :
    idxmaxB l = firstIdxWhere id l := by
  have hne : (l.map fun b => if b then (1 : Nat) else 0) ≠ [] := by
    cases l with
    | nil => simp at h
    | cons a t => simp
  obtain ⟨i, hargm, hfirst⟩ := argmaxFirst_eq_firstIdx _ hne
  simp only [boolNat_foldr_eq_one h] at hargm hfirst
  rw [firstIdxWhere_map] at hfirst
  have hconv := firstIdxWhere_congr (fun a => decide (1 ≤ if a then (1 : Nat) else 0))
    id l (by intro a; cases a <;> simp)
  rw [hconv] at hfirst
  rw [idxmaxB, hargm]
  simp [hfirst]

/-! ## Claim C7: column normalizer idempotence and purity -/

theorem map_id_of_fixed {α : Type} (f : α → α) :
    ∀ (l : List α), (∀ a ∈ l, f a = a) → l.map f = l := by
  intro l
  induction l with
  | nil => intro _; rfl
  | cons a t ih =>
    intro h
    rw [List.map_cons, h a (by simp), ih (fun b hb => h b (by simp [hb]))]

theorem canonVocab_fixed :
    ∀ l ∈ canonicalVocab, canonLabel10415 l = l ∧ canonLabelGehs l = l := by decide

/-- C7 (confirmed): the column normalizer is idempotent on the canonical
vocabulary — renaming a label sequence drawn from the canonical names
returns it unchanged, in both pipeline variants — and the mapping is a pure
function of the label text: positions holding identical labels always
receive identical renamings. -/
theorem C7_column_normalizer_idempotent :
    (∀ cols : List String, (∀ l ∈ cols, l ∈ canonicalVocab) →
        renameColumns10415 cols = cols ∧ renameColumnsGehs cols = cols) ∧
    (∀ cols cols' : List String, ∀ i : Nat, cols.get? i = cols'.get? i →
        (renameColumns10415 cols).get? i = (renameColumns10415 cols').get? i ∧
        (renameColumnsGehs cols).get? i = (renameColumnsGehs cols').get? i) := by
  constructor
  · intro cols h
    exact ⟨map_id_of_fixed _ cols (fun l hl => (canonVocab_fixed l (h l hl)).1),
      map_id_of_fixed _ cols (fun l hl => (canonVocab_fixed l (h l hl)).2)⟩
  · intro cols cols' i h
    constructor
    · show (cols.map canonLabel10415).get? i = (cols'.map canonLabel10415).get? i
      rw [List.get?_map, List.get?_map, h]
    · show (cols.map canonLabelGehs).get? i = (cols'.map canonLabelGehs).get? i
      rw [List.get?_map, List.get?_map, h]

/-- Witness for C7: the idempotence instance on the canonical vocabulary
itself. -/
theorem C7_witness :
    renameColumns10415 canonicalVocab = canonicalVocab ∧
    renameColumnsGehs canonicalVocab = canonicalVocab :=
  C7_column_normalizer_idempotent.1 canonicalVocab (fun _ hl => hl)

/-! ## Claim C4: the name splitter on degenerate inputs -/

/-- C4 (code_bug): the splitter matches the claim on a missing value, one
token and several tokens, but on a non-missing value with zero tokens (the
empty or all-whitespace string) the source evaluates `parts[-1]` on an empty
list and raises `IndexError` instead of producing two empty fields. -/
theorem C4_split_name_zero_tokens :
    splitName (some "") = Except.error () ∧
    splitName (some "   ") = Except.error () ∧
    splitName none = Except.ok ("", "") ∧
    splitName (some "Cruz") = Except.ok ("Cruz", "") ∧
    splitName (some "Maria Elena Gomez") = Except.ok ("Maria Elena", "Gomez") ∧
    splitName (some " Maria  Elena   Gomez ") = Except.ok ("Maria Elena", "Gomez") := by
  exact ⟨rfl, rfl, rfl, rfl, rfl, rfl⟩

/-! ## Claim C5: the date normalizer -/

/-- C5 (confirmed): the per-cell date normalisation is a total function of
the cell (the embedded composition of coercing parse, fixed-width format
and fill never raises); the spec examples normalise as claimed, and every
output is either empty (unparseable or missing input) or exactly the
ten-character `MM/DD/YYYY` rendering. -/
theorem C5_date_normalizer_total :
    normalizeDateCell (some "2025-09-03") = "09/03/2025" ∧
    normalizeDateCell (some "09/03/2025") = "09/03/2025" ∧
    normalizeDateCell (some "not a date") = "" ∧
    normalizeDateCell (some "") = "" ∧
    normalizeDateCell none = "" ∧
    (∀ v : Cell, normalizeDateCell v = "" ∨ (normalizeDateCell v).length = 10) := by
  refine ⟨by decide, by decide, by decide, by decide, rfl, ?_⟩
  intro v
  cases h : toDatetimeCell v with
  | none =>
    left
    simp only [normalizeDateCell, h]
  | some ymd =>
    obtain ⟨y, m, d⟩ := ymd
    right
    simp only [normalizeDateCell, h]
    show (fmtMDY m d y).length = 10
    simp [fmtMDY, String.length, pad2L, pad4L]

/-! ## Claim C1: the header detector -/

theorem anyMapAux {α β : Type} (f : α → β) (p : β → Bool) (l : List α) :
    (l.map f).any p = l.any (fun a => p (f a)) := by
  induction l with
  | nil => rfl
  | cons a t ih => simp [List.any_cons, ih]

theorem detect10415_eq_claimed (g : Grid) (hg : g ≠ []) :
    detectHeaderRow10415 g = claimedHeaderIdx g ∧ (claimedHeaderIdx g).isSome := by
  have hmm1 : ((g.map normFirstCol).map childMarker).any id
      = g.any (fun r => childMarker (normFirstCol r)) := by
    rw [anyMapAux, anyMapAux]
    rfl
  have hmm2 : ((g.map normFirstCol).map pidMarker).any id
      = g.any (fun r => pidMarker (normFirstCol r)) := by
    rw [anyMapAux, anyMapAux]
    rfl
  by_cases h1 : ((g.map normFirstCol).map childMarker).any id = true
  · have h1g : g.any (fun r => childMarker (normFirstCol r)) = true := hmm1 ▸ h1
    obtain ⟨i, hi⟩ := firstIdxWhere_isSome_of_any h1g
    have hconv : firstIdxWhere id ((g.map normFirstCol).map childMarker)
        = firstIdxWhere (fun r => childMarker (normFirstCol r)) g := by
      rw [firstIdxWhere_map, firstIdxWhere_map]; rfl
    constructor
    · simp only [detectHeaderRow10415, claimedHeaderIdx]
      rw [if_pos h1, idxmaxB_eq_firstIdx h1, hconv, hi]
    · simp only [claimedHeaderIdx]
      rw [hi]
      rfl
  · have h1g : g.any (fun r => childMarker (normFirstCol r)) = false :=
      hmm1 ▸ (Bool.not_eq_true _).mp h1
    have h1n : firstIdxWhere (fun r => childMarker (normFirstCol r)) g = none :=
      firstIdxWhere_eq_none_of_any h1g
    by_cases h2 : ((g.map normFirstCol).map pidMarker).any id = true
    · have h2g : g.any (fun r => pidMarker (normFirstCol r)) = true := hmm2 ▸ h2
      obtain ⟨i, hi⟩ := firstIdxWhere_isSome_of_any h2g
      have hconv : firstIdxWhere id ((g.map normFirstCol).map pidMarker)
          = firstIdxWhere (fun r => pidMarker (normFirstCol r)) g := by
        rw [firstIdxWhere_map, firstIdxWhere_map]; rfl
      constructor
      · simp only [detectHeaderRow10415, claimedHeaderIdx]
        rw [if_neg h1, if_pos h2, idxmaxB_eq_firstIdx h2, hconv, h1n, hi]
      · simp only [claimedHeaderIdx]
        rw [h1n, hi]
        rfl
    · have h2g : g.any (fun r => pidMarker (normFirstCol r)) = false :=
        hmm2 ▸ (Bool.not_eq_true _).mp h2
      have h2n : firstIdxWhere (fun r => pidMarker (normFirstCol r)) g = none :=
        firstIdxWhere_eq_none_of_any h2g
      have hne : g.map notNaCount ≠ [] := by
        cases g with
        | nil => exact absurd rfl hg
        | cons a t => simp
      obtain ⟨i, hargm, hfirst⟩ := argmaxFirst_eq_firstIdx (g.map notNaCount) hne
      have hfold : (g.map notNaCount).foldr max 0 = (g.map notNaCount).foldr max 0 := rfl
      rw [firstIdxWhere_map] at hfirst
      constructor
      · simp only [detectHeaderRow10415, claimedHeaderIdx]
        rw [if_neg h1, if_neg h2, h1n, h2n, hargm, hfirst]
        rfl
      · simp only [claimedHeaderIdx]
        rw [h1n, h2n, hfirst]
        rfl

theorem detectGehs_eq_claimed (g : Grid) (hg : g ≠ []) :
    detectHeaderRowGehs g = claimedHeaderIdxGehs g ∧ (claimedHeaderIdxGehs g).isSome := by
  have hmm2 : ((g.map normFirstCol).map pidMarker).any id
      = g.any (fun r => pidMarker (normFirstCol r)) := by
    rw [anyMapAux, anyMapAux]
    rfl
  by_cases h2 : ((g.map normFirstCol).map pidMarker).any id = true
  · have h2g : g.any (fun r => pidMarker (normFirstCol r)) = true := hmm2 ▸ h2
    obtain ⟨i, hi⟩ := firstIdxWhere_isSome_of_any h2g
    have hconv : firstIdxWhere id ((g.map normFirstCol).map pidMarker)
        = firstIdxWhere (fun r => pidMarker (normFirstCol r)) g := by
      rw [firstIdxWhere_map, firstIdxWhere_map]; rfl
    constructor
    · simp only [detectHeaderRowGehs, claimedHeaderIdxGehs]
      rw [if_pos h2, idxmaxB_eq_firstIdx h2, hconv, hi]
    · simp only [claimedHeaderIdxGehs]
      rw [hi]
      rfl
  · have h2g : g.any (fun r => pidMarker (normFirstCol r)) = false :=
      hmm2 ▸ (Bool.not_eq_true _).mp h2
    have h2n : firstIdxWhere (fun r => pidMarker (normFirstCol r)) g = none :=
      firstIdxWhere_eq_none_of_any h2g
    have hne : g.map stColonCount ≠ [] := by
      cases g with
      | nil => exact absurd rfl hg
      | cons a t => simp
    obtain ⟨i, hargm, hfirst⟩ := argmaxFirst_eq_firstIdx (g.map stColonCount) hne
    rw [firstIdxWhere_map] at hfirst
    constructor
    · simp only [detectHeaderRowGehs, claimedHeaderIdxGehs]
      rw [if_neg h2, h2n, hargm, hfirst]
      rfl
    · simp only [claimedHeaderIdxGehs]
      rw [h2n, hfirst]
      rfl

/-- Counterexample for C1: on a grid with no marker rows, where the first
row is the densest (three populated cells against one) but the second row
contains an `ST:` cell, the gehs header detector returns index 1 while the
claimed precedence (child marker, then pid marker, then densest row)
demands index 0.  The program therefore has a header detector that violates
the claimed precedence. -/
theorem C1_counterexample :
    detectHeaderRowGehs [[some "a", some "b", some "c"], [some "ST: IEP", none, none]]
        = some 1 ∧
    claimedHeaderIdx [[some "a", some "b", some "c"], [some "ST: IEP", none, none]]
        = some 0 := by
  constructor <;> rfl

/-- C1 (corrected): the claimed precedence (first child-authorization
marker in the first column; else first `participant pid` match; else the
first densest row by non-empty cells) is exactly the behavior of the 10415
formatter header detector, and it always yields an index on a nonempty
grid.  The gehs variant instead checks only `participant pid` and falls
back to the first row with the greatest count of cells containing `ST:`. -/
theorem C1_amended_header_detector :
    ∀ g : Grid, g ≠ [] →
      (detectHeaderRow10415 g = claimedHeaderIdx g ∧ (claimedHeaderIdx g).isSome) ∧
      (detectHeaderRowGehs g = claimedHeaderIdxGehs g ∧ (claimedHeaderIdxGehs g).isSome) :=
  fun g hg => ⟨detect10415_eq_claimed g hg, detectGehs_eq_claimed g hg⟩

/-- Witness for C1: the amended theorem applied to a concrete two-row grid
whose header row holds the pid marker. -/
theorem C1_amended_witness :
    detectHeaderRow10415 [[some "junk"], [some "Participant PID"]]
        = claimedHeaderIdx [[some "junk"], [some "Participant PID"]] ∧
    detectHeaderRowGehs [[some "junk"], [some "Participant PID"]]
        = claimedHeaderIdxGehs [[some "junk"], [some "Participant PID"]] :=
  ⟨(C1_amended_header_detector [[some "junk"], [some "Participant PID"]]
      (by decide)).1.1,
   (C1_amended_header_detector [[some "junk"], [some "Participant PID"]]
      (by decide)).2.1⟩

/-! ## Claim C6: the projector -/

theorem selectCols_cellIn (df : DF) (names : List String) (n : String)
    (r : List Cell) (hn : n ∈ names) :
    cellIn (names.map (fun n' => cellIn r (colIndexOf df n')))
        ((firstIdxWhere (fun c => c == n) names).getD 0)
      = cellIn r (colIndexOf df n) := by
  have hany : names.any (fun c => c == n) = true := by
    rw [List.any_eq_true]
    exact ⟨n, hn, by simp⟩
  obtain ⟨i, hi⟩ := firstIdxWhere_isSome_of_any hany
  obtain ⟨a, ha, hbeq⟩ := firstIdxWhere_get hi
  have han : a = n := by simpa using hbeq
  rw [hi]
  show cellIn (names.map (fun n' => cellIn r (colIndexOf df n'))) i = _
  rw [cellIn, List.get?_map, ha]
  simp [han]

/-- C6 (confirmed): the projector emits exactly the preferred-list columns
present in the input, in the preferred order (the filter of the fixed list),
never introduces a column absent from the input, omits absent preferred
columns without padding or error (the projection is total), maps rows
one-to-one in order while preserving each projected value, and the
blank-row filter runs before projection: the surviving rows are an
order-preserving sublist of the read rows with every all-empty row gone. -/
theorem C6_projector :
    (∀ df : DF,
      (projectWith preferredCols10415 df).cols
          = preferredCols10415.filter (fun c => df.cols.contains c) ∧
      (projectWith desiredColsGehs df).cols
          = desiredColsGehs.filter (fun c => df.cols.contains c)) ∧
    (∀ (df : DF) (pref : List String) (c : String),
      c ∈ (projectWith pref df).cols → c ∈ df.cols ∧ c ∈ pref) ∧
    (∀ (df : DF) (pref : List String),
      (projectWith pref df).rows.length = df.rows.length ∧
      ∀ n, n ∈ existingCols pref df → ∀ k,
        lookupCol (projectWith pref df) n k = lookupCol df n k) ∧
    (∀ df : DF,
      (dropAllNa df).rows.Sublist df.rows ∧
      ∀ r ∈ (dropAllNa df).rows, allNaRow r = false) ∧
    (∀ (g : Grid) (h : Nat),
      (normalizeGehs g h).rows.length
        = ((readWithHeader g h).rows.filter (fun r => !(allNaRow r))).length) := by
  refine ⟨fun df => ⟨rfl, rfl⟩, ?_, ?_, ?_, ?_⟩
  · intro df pref c hc
    have : c ∈ pref ∧ df.cols.contains c = true := by
      simpa [projectWith, selectCols, existingCols, List.mem_filter] using hc
    exact ⟨by simpa using this.2, this.1⟩
  · intro df pref
    constructor
    · simp [projectWith, selectCols]
    · intro n hn k
      rw [lookupCol, lookupCol]
      show ((df.rows.map _).get? k).map _ = _
      rw [List.get?_map]
      cases hk : df.rows.get? k with
      | none => rfl
      | some r =>
        simp only [Option.map_some']
        have := selectCols_cellIn df (existingCols pref df) n r hn
        show some (cellIn _ (colIndexOf (projectWith pref df) n)) = some (cellIn r (colIndexOf df n))
        rw [← this]
        rfl
  · intro df
    exact ⟨List.filter_sublist _, fun r hr => by
      have := (List.mem_filter.mp hr).2
      simpa using this⟩
  · intro g h
    simp [normalizeGehs, projectWith, selectCols, renameDFGehs, dropAllNa]

/-- Witness for C6 on a concrete frame: projection keeps the preferred
columns in preferred order, preserves the PID value of the first row, and
blank-row removal produces a sublist. -/
theorem C6_witness :
    lookupCol (projectWith preferredCols10415
        ⟨["Extra", "Last Name", "PID"], [[some "e", some "l", some "p"]]⟩) "PID" 0
      = lookupCol ⟨["Extra", "Last Name", "PID"], [[some "e", some "l", some "p"]]⟩ "PID" 0 ∧
    (projectWith preferredCols10415
        ⟨["Extra", "Last Name", "PID"], [[some "e", some "l", some "p"]]⟩).cols
      = ["PID", "Last Name"] ∧
    (dropAllNa ⟨["A"], [[none], [some "x"]]⟩).rows.Sublist [[none], [some "x"]] := by
  refine ⟨?_, ?_, ?_⟩
  · exact (C6_projector.2.2.1 _ preferredCols10415).2 "PID" (by decide) 0
  · rw [(C6_projector.1 _).1]
    decide
  · exact (C6_projector.2.2.2.1 ⟨["A"], [[none], [some "x"]]⟩).1

/-! ## Claim C9: the filename gate -/

/-- C9 (confirmed): when the uploaded filename lacks the required substring
the run halts with the rejection message — which names the required
substring — before any processing (the outcome is independent of the grid)
and produces no artifact; when the substring is present, processing
proceeds on the grid.  Both variants behave this way with their respective
tokens `10415` and `10432`. -/
theorem C9_filename_gate :
    ∀ (fname title : String) (g : Grid),
      (containsSub "10415".data fname.data = false →
        mainRun10415 fname title g = Except.error rejectMsg10415 ∧
        containsSub "10415".data rejectMsg10415.data = true ∧
        ∀ g' : Grid, mainRun10415 fname title g = mainRun10415 fname title g') ∧
      (containsSub "10415".data fname.data = true →
        mainRun10415 fname title g = Except.ok (process10415 title g)) ∧
      (containsSub "10432".data fname.data = false →
        mainRunGehs fname title g = Except.error rejectMsgGehs ∧
        containsSub "10432".data rejectMsgGehs.data = true ∧
        ∀ g' : Grid, mainRunGehs fname title g = mainRunGehs fname title g') ∧
      (containsSub "10432".data fname.data = true →
        mainRunGehs fname title g = Except.ok (processGehs title g)) := by
  intro fname title g
  refine ⟨?_, ?_, ?_, ?_⟩
  · intro h
    refine ⟨?_, by decide, ?_⟩
    · rw [mainRun10415, if_neg (by simp [h])]
    · intro g'
      rw [mainRun10415, mainRun10415, if_neg (by simp [h]), if_neg (by simp [h])]
  · intro h
    rw [mainRun10415, if_pos h]
  · intro h
    refine ⟨?_, by decide, ?_⟩
    · rw [mainRunGehs, if_neg (by simp [h])]
    · intro g'
      rw [mainRunGehs, mainRunGehs, if_neg (by simp [h]), if_neg (by simp [h])]
  · intro h
    rw [mainRunGehs, if_pos h]

/-- Witness for C9: the rejection scenario of the spec (`report.xlsx`
lacking `10415`) and an accepted filename, in both variants. -/
theorem C9_witness :
    mainRun10415 "report.xlsx" "T" [] = Except.error rejectMsg10415 ∧
    mainRun10415 "HCHSP 10415 export.xlsx" "T" []
      = Except.ok (process10415 "T" []) ∧
    mainRunGehs "report.xlsx" "T" [] = Except.error rejectMsgGehs ∧
    mainRunGehs "HCHSP 10432 export.xlsx" "T" []
      = Except.ok (processGehs "T" []) :=
  ⟨((C9_filename_gate "report.xlsx" "T" []).1 (by decide)).1,
   (C9_filename_gate "HCHSP 10415 export.xlsx" "T" []).2.1 (by decide),
   ((C9_filename_gate "report.xlsx" "T" []).2.2.1 (by decide)).1,
   (C9_filename_gate "HCHSP 10432 export.xlsx" "T" []).2.2.2 (by decide)⟩

/-! ## Claim C10: the name-splitting step as a frame-preserving extension -/

theorem mapExcept_ok_length {α β ε : Type} (f : α → Except ε β) :
    ∀ {l : List α} {ys : List β}, mapExcept f l = Except.ok ys →
      ys.length = l.length := by
  intro l
  induction l with
  | nil =>
    intro ys h
    simp only [mapExcept] at h
    cases h
    rfl
  | cons a t ih =>
    intro ys h
    simp only [mapExcept] at h
    cases hfa : f a with
    | error e => rw [hfa] at h; exact absurd h (by simp)
    | ok b =>
      rw [hfa] at h
      cases hmt : mapExcept f t with
      | error e => rw [hmt] at h; exact absurd h (by simp)
      | ok bs =>
        rw [hmt] at h
        have hys : b :: bs = ys := by simpa using h
        subst hys
        simp [ih hmt]

theorem mapExcept_ok_get {α β ε : Type} (f : α → Except ε β) :
    ∀ {l : List α} {ys : List β}, mapExcept f l = Except.ok ys →
      ∀ k a, l.get? k = some a → ∃ b, ys.get? k = some b ∧ f a = Except.ok b := by
  intro l
  induction l with
  | nil =>
    intro ys _ k a ha
    simp at ha
  | cons x t ih =>
    intro ys h k a ha
    simp only [mapExcept] at h
    cases hfa : f x with
    | error e => rw [hfa] at h; exact absurd h (by simp)
    | ok b =>
      rw [hfa] at h
      cases hmt : mapExcept f t with
      | error e => rw [hmt] at h; exact absurd h (by simp)
      | ok bs =>
        rw [hmt] at h
        have hys : b :: bs = ys := by simpa using h
        subst hys
        cases k with
        | zero =>
          have : x = a := by simpa using ha
          subst this
          exact ⟨b, rfl, hfa⟩
        | succ k =>
          exact ih hmt k a (by simpa using ha)

theorem zip_get {α β : Type} :
    ∀ (l : List α) (l2 : List β) (k : Nat) (a : α) (b : β),
      l.get? k = some a → l2.get? k = some b → (l.zip l2).get? k = some (a, b) := by
  intro l
  induction l with
  | nil => intro l2 k a b ha; simp at ha
  | cons x t ih =>
    intro l2 k a b ha hb
    cases l2 with
    | nil => simp at hb
    | cons y t2 =>
      cases k with
      | zero =>
        have hxa : x = a := by simpa using ha
        have hyb : y = b := by simpa using hb
        subst hxa; subst hyb
        rfl
      | succ k =>
        show (t.zip t2).get? k = some (a, b)
        exact ih t2 k a b (by simpa using ha) (by simpa using hb)

/-- C10 (confirmed): when a `Child Name` column is present and the split
step succeeds, the step only appends the missing ones among `First Name`
and `Last Name` (in that order, each derived independently from the split),
never overwrites them when both already exist (the frame is the identity),
and leaves every pre-existing column of every record unchanged (each output
row extends its input row, which stays an unchanged prefix). -/
theorem C10_split_frame :
    ∀ (df df' : DF), df.cols.contains "Child Name" = true →
      splitChildName df = Except.ok df' →
      (df'.cols = df.cols
          ++ (if df.cols.contains "First Name" then [] else ["First Name"])
          ++ (if df.cols.contains "Last Name" then [] else ["Last Name"])) ∧
      df'.rows.length = df.rows.length ∧
      (∀ k r, df.rows.get? k = some r →
        ∃ r', df'.rows.get? k = some r' ∧ r'.take r.length = r) ∧
      (df.cols.contains "First Name" = true → df.cols.contains "Last Name" = true →
        df' = df) ∧
      (df.cols.contains "First Name" = false →
        ∀ k r, df.rows.get? k = some r →
          ∃ r' p, df'.rows.get? k = some r' ∧
            splitName (cellIn r (colIndexOf df "Child Name")) = Except.ok p ∧
            r'.get? r.length = some (some p.1)) ∧
      (df.cols.contains "Last Name" = false →
        ∀ k r, df.rows.get? k = some r →
          ∃ r' p, df'.rows.get? k = some r' ∧
            splitName (cellIn r (colIndexOf df "Child Name")) = Except.ok p ∧
            r'.get? (r.length + (if df.cols.contains "First Name" then 0 else 1))
              = some (some p.2)) := by
  intro df df' hcn hok
  rw [splitChildName, if_pos hcn] at hok
  cases hm : mapExcept (fun r => splitName (cellIn r (colIndexOf df "Child Name"))) df.rows with
  | error e => rw [hm] at hok; exact absurd hok (by simp)
  | ok pairs =>
    rw [hm] at hok
    have hdf : df' = ⟨df.cols
        ++ (if !(df.cols.contains "First Name") then ["First Name"] else [])
        ++ (if !(df.cols.contains "Last Name") then ["Last Name"] else []),
      (df.rows.zip pairs).map (fun rp =>
        rp.1 ++ (if !(df.cols.contains "First Name") then [some rp.2.1] else [])
          ++ (if !(df.cols.contains "Last Name") then [some rp.2.2] else []))⟩ := by
      have h2 := hok
      simp only [Except.ok.injEq] at h2
      exact h2.symm
    have hplen : pairs.length = df.rows.length := mapExcept_ok_length _ hm
    subst hdf
    have hget : ∀ (k : Nat) (r : List Cell) (p : String × String),
        df.rows.get? k = some r → pairs.get? k = some p →
        ((df.rows.zip pairs).map (fun rp =>
          rp.1 ++ (if !(df.cols.contains "First Name") then [some rp.2.1] else [])
            ++ (if !(df.cols.contains "Last Name") then [some rp.2.2] else []))).get? k
          = some (r ++ (if !(df.cols.contains "First Name") then [some p.1] else [])
            ++ (if !(df.cols.contains "Last Name") then [some p.2] else [])) := by
      intro k r p hk hp
      rw [List.get?_map, zip_get df.rows pairs k r p hk hp]
      rfl
    refine ⟨?_, ?_, ?_, ?_, ?_, ?_⟩
    · cases hF : df.cols.contains "First Name" <;>
        cases hL : df.cols.contains "Last Name" <;> simp [hF, hL]
    · simp [hplen, Nat.min_self]
    · intro k r hk
      obtain ⟨p, hp, _⟩ := mapExcept_ok_get _ hm k r hk
      refine ⟨_, hget k r p hk hp, ?_⟩
      rw [List.append_assoc]
      exact List.take_left r _
    · intro hF hL
      have hF' : "First Name" ∈ df.cols := by simpa using hF
      have hL' : "Last Name" ∈ df.cols := by simpa using hL
      have hcols : df.cols
          ++ (if !(df.cols.contains "First Name") then ["First Name"] else [])
          ++ (if !(df.cols.contains "Last Name") then ["Last Name"] else [])
          = df.cols := by
        simp [hF, hL, hF', hL']
      have hrows : (df.rows.zip pairs).map (fun rp =>
          rp.1 ++ (if !(df.cols.contains "First Name") then [some rp.2.1] else [])
            ++ (if !(df.cols.contains "Last Name") then [some rp.2.2] else []))
          = df.rows := by
        have hcong : ∀ rp ∈ df.rows.zip pairs,
            rp.1 ++ (if !(df.cols.contains "First Name") then [some rp.2.1] else [])
              ++ (if !(df.cols.contains "Last Name") then [some rp.2.2] else [])
            = (fun ab => ab.1) rp := by
          intro rp _
          simp [hF, hL, hF', hL']
        rw [List.map_congr_left hcong, List.map_fst_zip df.rows pairs (by omega)]
      rw [hcols, hrows]
    · intro hF k r hk
      obtain ⟨p, hp, hsp⟩ := mapExcept_ok_get _ hm k r hk
      refine ⟨_, p, hget k r p hk hp, hsp, ?_⟩
      have h1 : (!(df.cols.contains "First Name")) = true := by rw [hF]; rfl
      rw [h1, if_pos rfl, List.append_assoc, List.get?_append_right (by omega)]
      simp
    · intro hL k r hk
      obtain ⟨p, hp, hsp⟩ := mapExcept_ok_get _ hm k r hk
      refine ⟨_, p, hget k r p hk hp, hsp, ?_⟩
      have h2 : (!(df.cols.contains "Last Name")) = true := by rw [hL]; rfl
      rw [h2, if_pos rfl]
      cases hF : df.cols.contains "First Name" with
      | true =>
        simp only [Bool.not_true, Bool.false_eq_true, if_false, List.append_nil,
          eq_self_iff_true, if_true, Nat.add_zero]
        rw [List.get?_append_right (by omega)]
        simp
      | false =>
        simp only [Bool.not_false, Bool.false_eq_true, if_false, eq_self_iff_true,
          if_true]
        rw [List.append_assoc, List.get?_append_right (by omega)]
        have hlen : r.length + 1 - r.length = 1 := by omega
        rw [hlen]
        rfl

/-- Witness for C10: a frame with `Child Name` and an existing `First Name`
column derives only `Last Name` and keeps the original row as a prefix. -/
theorem C10_witness :
    (splitChildName ⟨["Child Name", "First Name"], [[some "Ana Cruz", some "X"]]⟩
        = Except.ok ⟨["Child Name", "First Name", "Last Name"],
            [[some "Ana Cruz", some "X", some "Cruz"]]⟩) ∧
    (⟨["Child Name", "First Name", "Last Name"],
        [[some "Ana Cruz", some "X", some "Cruz"]]⟩ : DF).cols
      = ["Child Name", "First Name"]
          ++ (if (["Child Name", "First Name"].contains "First Name") then []
              else ["First Name"])
          ++ (if (["Child Name", "First Name"].contains "Last Name") then []
              else ["Last Name"]) := by
  refine ⟨rfl, ?_⟩
  exact (C10_split_frame ⟨["Child Name", "First Name"], [[some "Ana Cruz", some "X"]]⟩
    ⟨["Child Name", "First Name", "Last Name"],
      [[some "Ana Cruz", some "X", some "Cruz"]]⟩ (by decide) rfl).1

/-! ## Worksheet algebra: bounds rectangles and cell folds -/

def rectUnion (S R : Rect) : Rect :=
  (min S.1 R.1, min S.2.1 R.2.1, max S.2.2.1 R.2.2.1, max S.2.2.2 R.2.2.2)

def mergeRect (o : Option Rect) (R : Rect) : Option Rect :=
  match o with
  | none => some R
  | some S => some (rectUnion S R)

theorem touchB_eq_merge (b : Option Rect) (r c : Nat) :
    touchB b r c = mergeRect b (r, c, r, c) := by
  cases b with
  | none => rfl
  | some S =>
    obtain ⟨a, b', x, y⟩ := S
    rfl

theorem rectUnion_self (R : Rect) : rectUnion R R = R := by
  obtain ⟨a, b, c, d⟩ := R
  simp [rectUnion]

theorem mergeRect_merge (o : Option Rect) (R S : Rect) :
    mergeRect (mergeRect o R) S = mergeRect o (rectUnion R S) := by
  cases o with
  | none => rfl
  | some T =>
    obtain ⟨a1, a2, a3, a4⟩ := T
    obtain ⟨b1, b2, b3, b4⟩ := R
    obtain ⟨c1, c2, c3, c4⟩ := S
    simp only [mergeRect, rectUnion, Option.some.injEq, Prod.mk.injEq]
    omega

theorem updateCell_bounds (ws : WS) (r c : Nat) (f : CellState → CellState) :
    (updateCell ws r c f).bounds = mergeRect ws.bounds (r, c, r, c) :=
  touchB_eq_merge ws.bounds r c

theorem updateCell_cells (ws : WS) (r c : Nat) (f : CellState → CellState)
    (p : Nat × Nat) :
    (updateCell ws r c f).cells p = if p = (r, c) then f (ws.cells p) else ws.cells p := rfl

theorem updateCell_updateCell (ws : WS) (r c : Nat) (f g : CellState → CellState) :
    updateCell (updateCell ws r c f) r c g = updateCell ws r c (fun s => g (f s)) := by
  have hc : (updateCell (updateCell ws r c f) r c g).cells
      = (updateCell ws r c (fun s => g (f s))).cells := by
    funext p
    by_cases h : p = (r, c) <;> simp [updateCell, h]
  have hbnd : (updateCell (updateCell ws r c f) r c g).bounds
      = (updateCell ws r c (fun s => g (f s))).bounds := by
    show touchB (touchB ws.bounds r c) r c = touchB ws.bounds r c
    cases hb : ws.bounds with
    | none =>
      simp only [touchB, Option.some.injEq, Prod.mk.injEq]
      omega
    | some S =>
      obtain ⟨a, b', x, y⟩ := S
      simp only [touchB, Option.some.injEq, Prod.mk.injEq]
      omega
  cases hw : updateCell (updateCell ws r c f) r c g with
  | mk cs bd =>
    cases hw2 : updateCell ws r c (fun s => g (f s)) with
    | mk cs2 bd2 =>
      rw [hw] at hc hbnd
      rw [hw2] at hc hbnd
      simp only at hc hbnd
      rw [hc, hbnd]

theorem foldl_inv_mem {α β : Type} (P : β → Prop) (f : β → α → β) :
    ∀ (l : List α) (b : β), P b → (∀ b' a, a ∈ l → P b' → P (f b' a)) →
      P (l.foldl f b) := by
  intro l
  induction l with
  | nil => intro b hb _; exact hb
  | cons x t ih =>
    intro b hb hf
    exact ih (f b x) (hf b x (by simp) hb)
      (fun b' a ha hb' => hf b' a (by simp [ha]) hb')

theorem mem_countUp : ∀ (n a x : Nat), x ∈ countUp a n ↔ a ≤ x ∧ x < a + n := by
  intro n
  induction n with
  | zero =>
    intro a x
    show x ∈ ([] : List Nat) ↔ _
    simp only [List.not_mem_nil, false_iff]
    omega
  | succ m ih =>
    intro a x
    show x ∈ a :: countUp (a + 1) m ↔ _
    rw [List.mem_cons, ih]
    omega

theorem mem_natsFromTo (a b x : Nat) : x ∈ natsFromTo a b ↔ a ≤ x ∧ x ≤ b := by
  rw [natsFromTo, mem_countUp]
  omega

theorem enumFromL_length {α : Type} : ∀ (l : List α) (j : Nat),
    (enumFromL j l).length = l.length := by
  intro l
  induction l with
  | nil => intro j; rfl
  | cons a t ih => intro j; simp [enumFromL, ih]

theorem touchB_inside {a b c d r k : Nat} {o : Option Rect}
    (ho : o = some (a, b, c, d))
    (h1 : a ≤ r) (h2 : r ≤ c) (h3 : b ≤ k) (h4 : k ≤ d) : touchB o r k = o := by
  subst ho
  simp only [touchB, Option.some.injEq, Prod.mk.injEq]
  omega

/-- Bounds of a row-directed enumerated fold of cell updates. -/
theorem enumFold_bounds {α : Type} (row : Nat) (u : α → CellState → CellState) :
    ∀ (cs : List α) (k : Nat) (ws : WS), cs ≠ [] →
      ((enumFromL k cs).foldl (fun w ja => updateCell w row ja.1 (u ja.2)) ws).bounds
        = mergeRect ws.bounds (row, k, row, k + cs.length - 1) := by
  intro cs
  induction cs with
  | nil => intro k ws h; exact absurd rfl h
  | cons a t ih =>
    intro k ws _
    show ((enumFromL (k + 1) t).foldl _ (updateCell ws row k (u a))).bounds = _
    cases t with
    | nil =>
      show (updateCell ws row k (u a)).bounds = _
      rw [updateCell_bounds]
      congr 1
    | cons b t2 =>
      rw [ih (k + 1) (updateCell ws row k (u a)) (by simp), updateCell_bounds,
        mergeRect_merge]
      congr 1
      simp only [rectUnion, List.length_cons, Prod.mk.injEq]
      omega

/-- Cells of a row-directed enumerated fold: positions left of the start or
outside the row are untouched. -/
theorem enumFold_cells_frame {α : Type} (row : Nat) (u : α → CellState → CellState) :
    ∀ (cs : List α) (k : Nat) (ws : WS) (p : Nat × Nat),
      (p.1 ≠ row ∨ p.2 < k) →
      ((enumFromL k cs).foldl (fun w ja => updateCell w row ja.1 (u ja.2)) ws).cells p
        = ws.cells p := by
  intro cs
  induction cs with
  | nil => intro k ws p _; rfl
  | cons a t ih =>
    intro k ws p hp
    show ((enumFromL (k + 1) t).foldl _ (updateCell ws row k (u a))).cells p = _
    rw [ih (k + 1) _ p (by omega), updateCell_cells, if_neg ?hne]
    case hne =>
      intro hc
      rcases hp with hp | hp
      · exact hp (by rw [hc])
      · rw [hc] at hp
        exact Nat.lt_irrefl k hp

/-- Cells of a row-directed enumerated fold at the position written from the
`j`-th element. -/
theorem enumFold_cells_at {α : Type} (row : Nat) (u : α → CellState → CellState) :
    ∀ (cs : List α) (j k : Nat) (ws : WS) (a : α),
      cs.get? j = some a →
      ((enumFromL k cs).foldl (fun w ja => updateCell w row ja.1 (u ja.2)) ws).cells
          (row, k + j)
        = u a (ws.cells (row, k + j)) := by
  intro cs
  induction cs with
  | nil => intro j k ws a h; simp at h
  | cons a0 t ih =>
    intro j k ws a h
    show ((enumFromL (k + 1) t).foldl _ (updateCell ws row k (u a0))).cells _ = _
    cases j with
    | zero =>
      have ha : a0 = a := by simpa using h
      subst ha
      rw [enumFold_cells_frame row u t (k + 1) _ (row, k + 0) (by right; omega)]
      rw [updateCell_cells, if_pos (by simp)]
    | succ j =>
      have hkj : k + (j + 1) = (k + 1) + j := by omega
      rw [hkj, ih j (k + 1) _ a (by simpa using h), updateCell_cells, if_neg ?hne2]
      case hne2 =>
        intro hc
        have hj : (k + 1) + j = k := congrArg Prod.snd hc
        omega

/-- Cells of a column-counting fold of cell updates along one row. -/
theorem countFold_cells (row : Nat) (u : Nat → CellState → CellState) :
    ∀ (m a : Nat) (ws : WS) (p : Nat × Nat),
      ((countUp a m).foldl (fun w k => updateCell w row k (u k)) ws).cells p
        = if p.1 = row ∧ a ≤ p.2 ∧ p.2 < a + m then u p.2 (ws.cells p)
          else ws.cells p := by
  intro m
  induction m with
  | zero =>
    intro a ws p
    rw [if_neg (by omega)]
    rfl
  | succ m ih =>
    intro a ws p
    obtain ⟨p1, p2⟩ := p
    show ((countUp (a + 1) m).foldl _ (updateCell ws row a (u a))).cells _ = _
    rw [ih (a + 1) (updateCell ws row a (u a)) (p1, p2), updateCell_cells]
    by_cases hin : p1 = row ∧ a + 1 ≤ p2 ∧ p2 < a + 1 + m
    · rw [if_pos hin, if_neg (by simp only [Prod.mk.injEq]; omega),
        if_pos (by omega)]
    · rw [if_neg hin]
      by_cases hpa : (p1, p2) = (row, a)
      · have h12 : p1 = row ∧ p2 = a := by
          simpa only [Prod.mk.injEq] using hpa
        obtain ⟨hh1, hh2⟩ := h12
        subst hh1; subst hh2
        rw [if_pos hpa, if_pos (by omega)]
      · have hcond : ¬((p1, p2).1 = row ∧ a ≤ (p1, p2).2 ∧ (p1, p2).2 < a + (m + 1)) := by
          intro hcon
          have hc1 : p1 = row := hcon.1
          have hc2 : a ≤ p2 := hcon.2.1
          have hc3 : p2 < a + (m + 1) := hcon.2.2
          have h2a : p2 = a := by omega
          exact hpa (by rw [hc1, h2a])
        rw [if_neg hpa, if_neg hcond]

/-- Bounds of a column-counting fold of cell updates along one row. -/
theorem countFold_bounds (row : Nat) (u : Nat → CellState → CellState) :
    ∀ (m a : Nat) (ws : WS), 1 ≤ m →
      ((countUp a m).foldl (fun w k => updateCell w row k (u k)) ws).bounds
        = mergeRect ws.bounds (row, a, row, a + m - 1) := by
  intro m
  induction m with
  | zero => intro a ws h; omega
  | succ m ih =>
    intro a ws _
    show ((countUp (a + 1) m).foldl _ (updateCell ws row a (u a))).bounds = _
    cases m with
    | zero =>
      show (updateCell ws row a (u a)).bounds = _
      rw [updateCell_bounds]
      congr 1
    | succ m2 =>
      rw [ih (a + 1) (updateCell ws row a (u a)) (by omega), updateCell_bounds,
        mergeRect_merge]
      congr 1
      simp only [rectUnion, Prod.mk.injEq]
      omega

/-! ## Fill preservation: the renderers never fill data-region cells -/

theorem foldl_congrF {α β : Type} (f g : β → α → β) (h : ∀ b a, f b a = g b a) :
    ∀ (l : List α) (b : β), l.foldl f b = l.foldl g b := by
  intro l
  induction l with
  | nil => intro b; rfl
  | cons x t ih => intro b; rw [List.foldl_cons, List.foldl_cons, h b x, ih]

theorem fill_setValue (ws : WS) (r c : Nat) (v : Cell) (p : Nat × Nat) :
    ((setValue ws r c v).cells p).fill = (ws.cells p).fill := by
  by_cases h : p = (r, c) <;> simp [setValue, updateCell_cells, h]

theorem fill_setFont (ws : WS) (r c : Nat) (f : FontSpec) (p : Nat × Nat) :
    ((setFont ws r c f).cells p).fill = (ws.cells p).fill := by
  by_cases h : p = (r, c) <;> simp [setFont, updateCell_cells, h]

theorem fill_setCentered (ws : WS) (r c : Nat) (p : Nat × Nat) :
    ((setCentered ws r c).cells p).fill = (ws.cells p).fill := by
  by_cases h : p = (r, c) <;> simp [setCentered, updateCell_cells, h]

theorem fill_setBorder (ws : WS) (r c : Nat) (b : BorderSpec) (p : Nat × Nat) :
    ((setBorder ws r c b).cells p).fill = (ws.cells p).fill := by
  by_cases h : p = (r, c) <;> simp [setBorder, updateCell_cells, h]

theorem fill_touchCell (ws : WS) (r c : Nat) (p : Nat × Nat) :
    ((touchCell ws r c).cells p).fill = (ws.cells p).fill := by
  by_cases h : p = (r, c) <;> simp [touchCell, updateCell_cells, h]

theorem fill_setFill_ne (ws : WS) (r c : Nat) (col : String) (p : Nat × Nat)
    (h : p ≠ (r, c)) :
    ((setFill ws r c col).cells p).fill = (ws.cells p).fill := by
  simp [setFill, updateCell_cells, h]

theorem foldl_fill {α : Type} (f : WS → α → WS)
    (hf : ∀ w a (p : Nat × Nat), ((f w a).cells p).fill = (w.cells p).fill) :
    ∀ (l : List α) (ws : WS) (p : Nat × Nat),
      ((l.foldl f ws).cells p).fill = (ws.cells p).fill := by
  intro l
  induction l with
  | nil => intro ws p; rfl
  | cons a t ih => intro ws p; rw [List.foldl_cons, ih, hf]

theorem fill_writeRow (ws : WS) (r : Nat) (cs : List Cell) (p : Nat × Nat) :
    ((writeRow ws r cs).cells p).fill = (ws.cells p).fill :=
  foldl_fill _ (fun w jv p' => fill_setValue w r jv.1 jv.2 p') _ ws p

theorem fill_writeRowsFrom (ws : WS) (start : Nat) (rows : List (List Cell))
    (p : Nat × Nat) :
    ((writeRowsFrom ws start rows).cells p).fill = (ws.cells p).fill :=
  foldl_fill _ (fun w ir p' => fill_writeRow w ir.1 ir.2 p') _ ws p

theorem foldl_fill_offrow {α : Type} (f : WS → α → WS) (row : Nat)
    (hf : ∀ w a (p : Nat × Nat), p.1 ≠ row →
      ((f w a).cells p).fill = (w.cells p).fill) :
    ∀ (l : List α) (ws : WS) (p : Nat × Nat), p.1 ≠ row →
      ((l.foldl f ws).cells p).fill = (ws.cells p).fill := by
  intro l
  induction l with
  | nil => intro ws p _; rfl
  | cons a t ih => intro ws p hp; rw [List.foldl_cons, ih _ _ hp, hf _ _ _ hp]

theorem fill_writeHeader10415 (ws : WS) (cols : List String) (p : Nat × Nat)
    (hp : p.1 ≠ 3) :
    ((writeHeader10415 ws cols).cells p).fill = (ws.cells p).fill := by
  refine foldl_fill_offrow _ 3 ?_ _ ws p hp
  intro w jc q hq
  rw [fill_setCentered, fill_setFill_ne _ _ _ _ _ (by
      intro hc
      exact hq (by rw [hc])),
    fill_setFont, fill_setValue]

theorem fill_styleHeaderGehs (ws : WS) (p : Nat × Nat) (hp : p.1 ≠ 2) :
    ((styleHeaderGehs ws).cells p).fill = (ws.cells p).fill := by
  refine foldl_fill_offrow _ 2 ?_ _ ws p hp
  intro w j q hq
  rw [fill_setCentered, fill_setFont, fill_setFill_ne _ _ _ _ _ (by
    intro hc
    exact hq (by rw [hc]))]

theorem fill_mergeTitleRow (ws : WS) (row ncols : Nat) (title : String)
    (p : Nat × Nat) :
    ((mergeTitleRow ws row ncols title).cells p).fill = (ws.cells p).fill := by
  rw [mergeTitleRow]
  rw [fill_setCentered, fill_setFont, fill_setValue]
  exact foldl_fill _ (fun w c p' => fill_touchCell w row c p') _ ws p

theorem fill_applyBorders (ws : WS) (topRow : Nat) (p : Nat × Nat) :
    ((applyBorders ws topRow).cells p).fill = (ws.cells p).fill := by
  rw [applyBorders]
  exact foldl_fill _ (fun w r p' =>
    foldl_fill _ (fun w' k p'' => fill_setBorder w' r k _ p'') _ w p') _ ws p

theorem fill_dateStyleWith (et : Cell → Bool) (startRow : Nat) (ws : WS)
    (cols : List String) (p : Nat × Nat) :
    ((dateStyleWith et startRow ws cols).cells p).fill = (ws.cells p).fill := by
  rw [dateStyleWith]
  cases hidx : firstIdxWhere (fun c => c == "Authorization Date") cols with
  | none => rfl
  | some i =>
    refine foldl_fill _ ?_ _ ws p
    intro w r q
    by_cases hemp : et ((w.cells (r, i + 1)).value) = true
    · rw [if_pos hemp, fill_setCentered, fill_setFont, fill_setValue]
    · rw [if_neg hemp, fill_setFont]

/-- Counterexample for C2: on a two-row RecordSet the rendered data rows at
offsets 0 and 1 (sheet rows 4 and 5 in the 10415 renderer) carry the same
background fill state, so no pair of distinct alternating fill states
exists: the renderer applies no banding at all. -/
theorem C2_counterexample :
    ¬ (∃ fe fo : Option String, fe ≠ fo ∧
        ((buildWorkbook10415 ⟨["PID"], [[some "1"], [some "2"]]⟩ "T").cells (4, 1)).fill = fe ∧
        ((buildWorkbook10415 ⟨["PID"], [[some "1"], [some "2"]]⟩ "T").cells (5, 1)).fill = fo) := by
  rintro ⟨fe, fo, hne, h0, h1⟩
  have e0 : ((buildWorkbook10415 ⟨["PID"], [[some "1"], [some "2"]]⟩ "T").cells (4, 1)).fill
      = none := rfl
  have e1 : ((buildWorkbook10415 ⟨["PID"], [[some "1"], [some "2"]]⟩ "T").cells (5, 1)).fill
      = none := rfl
  rw [e0] at h0
  rw [e1] at h1
  exact hne (h0.symm.trans h1)

/-- C2 (corrected): the renderers apply no alternating banding — every cell
in the data region (sheet rows from 4 in the 10415 renderer, from 3 in the
gehs renderer) keeps the empty background fill state, so all data rows share
one fill state rather than alternating between two, and trivially no cell
value is ever changed by a fill. -/
theorem C2_amended_no_banding :
    ∀ (df : DF) (title : String) (r c : Nat),
      (4 ≤ r → ((buildWorkbook10415 df title).cells (r, c)).fill = none) ∧
      (3 ≤ r → ((buildWorkbookGehs df title).cells (r, c)).fill = none) := by
  intro df title r c
  constructor
  · intro hr
    show ((dateStyleWith emptyVal10415 4 _ _).cells (r, c)).fill = none
    rw [fill_dateStyleWith, fill_applyBorders, fill_mergeTitleRow,
      fill_writeRowsFrom, fill_writeHeader10415 _ _ _ (by omega)]
    rfl
  · intro hr
    show ((dateStyleWith emptyValGehs 3 _ _).cells (r, c)).fill = none
    rw [fill_dateStyleWith, fill_applyBorders, fill_mergeTitleRow,
      fill_styleHeaderGehs _ _ (by omega), fill_writeRowsFrom, fill_writeRow]
    rfl

/-- Witness for C2: the amended no-banding theorem evaluated on a concrete
two-row RecordSet at the first two data rows of each variant. -/
theorem C2_amended_witness :
    ((buildWorkbook10415 ⟨["Center"], [[some "a"], [some "b"]]⟩ "T").cells (4, 1)).fill
        = none ∧
    ((buildWorkbook10415 ⟨["Center"], [[some "a"], [some "b"]]⟩ "T").cells (5, 1)).fill
        = none ∧
    ((buildWorkbookGehs ⟨["Center"], [[some "a"], [some "b"]]⟩ "T").cells (3, 1)).fill
        = none ∧
    ((buildWorkbookGehs ⟨["Center"], [[some "a"], [some "b"]]⟩ "T").cells (4, 1)).fill
        = none :=
  ⟨(C2_amended_no_banding ⟨["Center"], [[some "a"], [some "b"]]⟩ "T" 4 1).1 (by omega),
   (C2_amended_no_banding ⟨["Center"], [[some "a"], [some "b"]]⟩ "T" 5 1).1 (by omega),
   (C2_amended_no_banding ⟨["Center"], [[some "a"], [some "b"]]⟩ "T" 3 1).2 (by omega),
   (C2_amended_no_banding ⟨["Center"], [[some "a"], [some "b"]]⟩ "T" 4 1).2 (by omega)⟩

/-! ## Bounds of the rendering stages -/

/-- Composite cell update of the 10415 header write (value, font, fill,
centering in source order). -/
def hdrUpd10415 (c : String) : CellState → CellState := fun s =>
  { { { { s with value := some c }
        with font := some { bold := true, color := some WHITE, size := none } }
      with fill := some BLUE10415 }
    with centered := true }

/-- Composite cell update of the gehs header styling (fill, font,
centering in source order). -/
def hdrUpdGehs : CellState → CellState := fun s =>
  { { { s with fill := some BLUEGEHS }
      with font := some { bold := true, color := some WHITE, size := none } }
    with centered := true }

theorem writeHeader10415_form (ws : WS) (cols : List String) :
    writeHeader10415 ws cols
      = (enumFromL 1 cols).foldl (fun w ja => updateCell w 3 ja.1 (hdrUpd10415 ja.2)) ws := by
  rw [writeHeader10415]
  refine foldl_congrF _ _ ?_ _ ws
  intro w jc
  simp only [setValue, setFont, setFill, setCentered, updateCell_updateCell]
  rfl

theorem styleHeaderGehs_form (ws : WS) :
    styleHeaderGehs ws
      = (natsFromTo 1 (wsMaxCol ws)).foldl (fun w j => updateCell w 2 j hdrUpdGehs) ws := by
  rw [styleHeaderGehs]
  refine foldl_congrF _ _ ?_ _ ws
  intro w j
  simp only [setFill, setFont, setCentered, updateCell_updateCell]
  rfl

theorem writeRow_bounds (ws : WS) (r : Nat) (cs : List Cell) (h : cs ≠ []) :
    (writeRow ws r cs).bounds = mergeRect ws.bounds (r, 1, r, cs.length) := by
  have h2 := enumFold_bounds r (fun (v : Cell) s => { s with value := v }) cs 1 ws h
  have harith : 1 + cs.length - 1 = cs.length := by omega
  rw [harith] at h2
  exact h2

theorem writeHeader10415_bounds (ws : WS) (cols : List String) (h : cols ≠ []) :
    (writeHeader10415 ws cols).bounds = mergeRect ws.bounds (3, 1, 3, cols.length) := by
  rw [writeHeader10415_form]
  have h2 := enumFold_bounds 3 hdrUpd10415 cols 1 ws h
  have harith : 1 + cols.length - 1 = cols.length := by omega
  rw [harith] at h2
  exact h2

theorem writeRowsFrom_bounds (w : Nat) (hw : 1 ≤ w) :
    ∀ (rows : List (List Cell)), (∀ r ∈ rows, r.length = w) → rows ≠ [] →
      ∀ (start : Nat) (ws : WS),
        (writeRowsFrom ws start rows).bounds
          = mergeRect ws.bounds (start, 1, start + rows.length - 1, w) := by
  intro rows
  induction rows with
  | nil => intro _ h; exact absurd rfl h
  | cons row rest ih =>
    intro hlen _ start ws
    have hrow : row.length = w := hlen row (by simp)
    have hrowne : row ≠ [] := by
      intro hcon
      rw [hcon] at hrow
      simp at hrow
      omega
    show (writeRowsFrom (writeRow ws start row) (start + 1) rest).bounds = _
    cases rest with
    | nil =>
      show (writeRow ws start row).bounds = _
      rw [writeRow_bounds _ _ _ hrowne, hrow]
      have hsl : start + [row].length - 1 = start := by simp
      rw [hsl]
    | cons r2 rest2 =>
      rw [ih (fun r hr => hlen r (by simp [hr])) (by simp) (start + 1)
        (writeRow ws start row), writeRow_bounds _ _ _ hrowne, hrow, mergeRect_merge]
      congr 1
      simp only [rectUnion, List.length_cons, Prod.mk.injEq]
      omega

theorem mergeRect_absorb {a b c d r1 r2 r3 r4 : Nat}
    (h1 : a ≤ r1) (h2 : b ≤ r2) (h3 : r3 ≤ c) (h4 : r4 ≤ d) :
    mergeRect (some (a, b, c, d)) (r1, r2, r3, r4) = some (a, b, c, d) := by
  simp only [mergeRect, rectUnion, Option.some.injEq, Prod.mk.injEq]
  omega

theorem mergeTitleRow_bounds (ws : WS) (row ncols : Nat) (title : String)
    (h : 1 ≤ ncols) :
    (mergeTitleRow ws row ncols title).bounds = mergeRect ws.bounds (row, 1, row, ncols) := by
  rw [mergeTitleRow]
  have hfold : ((natsFromTo 1 ncols).foldl (fun w c => touchCell w row c) ws).bounds
      = mergeRect ws.bounds (row, 1, row, ncols) := by
    have h2 := countFold_bounds row (fun _ s => s) ncols 1 ws h
    have harith : 1 + ncols - 1 = ncols := by omega
    rw [harith] at h2
    exact h2
  show (setCentered (setFont (setValue _ row 1 _) row 1 _) row 1).bounds = _
  rw [setCentered, setFont, setValue, updateCell_bounds, updateCell_bounds,
    updateCell_bounds, hfold, mergeRect_merge, mergeRect_merge, mergeRect_merge]
  congr 1
  simp only [rectUnion, Prod.mk.injEq]
  omega

theorem styleHeaderGehs_bounds {a b c d : Nat} (ws : WS)
    (hb : ws.bounds = some (a, b, c, d)) (ha2 : a ≤ 2) (h2c : 2 ≤ c)
    (hb1 : b ≤ 1) (hd : 1 ≤ d) :
    (styleHeaderGehs ws).bounds = some (a, b, c, d) := by
  rw [styleHeaderGehs_form]
  have hmc : wsMaxCol ws = d := by rw [wsMaxCol, hb]
  rw [hmc]
  have h2 := countFold_bounds 2 (fun _ => hdrUpdGehs) d 1 ws hd
  rw [natsFromTo]
  have hdd : d + 1 - 1 = d := by omega
  rw [hdd]
  rw [h2, hb]
  exact mergeRect_absorb ha2 hb1 h2c (by omega)

theorem applyBorders_bounds {a b c d : Nat} (ws : WS) (topRow : Nat)
    (hb : ws.bounds = some (a, b, c, d)) (hat : a ≤ topRow) (hb1 : b ≤ 1)
    (hd : 1 ≤ d) :
    (applyBorders ws topRow).bounds = some (a, b, c, d) := by
  rw [applyBorders]
  have hmr : wsMaxRow ws = c := by rw [wsMaxRow, hb]
  have hmc : wsMaxCol ws = d := by rw [wsMaxCol, hb]
  rw [hmr, hmc]
  refine foldl_inv_mem (fun (w : WS) => w.bounds = some (a, b, c, d)) _ _ _ hb ?_
  intro w r hr hw
  have hrr := (mem_natsFromTo topRow c r).mp hr
  have h2 : ((natsFromTo 1 d).foldl (fun w' k =>
      setBorder w' r k (borderSpecFor topRow c d r k)) w).bounds
      = mergeRect w.bounds (r, 1, r, 1 + d - 1) :=
    countFold_bounds r (fun k s =>
      { s with border := some (borderSpecFor topRow c d r k) }) d 1 w hd
  show ((natsFromTo 1 d).foldl (fun w' k =>
    setBorder w' r k (borderSpecFor topRow c d r k)) w).bounds = _
  rw [h2, hw]
  exact mergeRect_absorb (by omega) hb1 (by omega) (by omega)

theorem dateStyle_bounds {a b c d : Nat} (et : Cell → Bool) (startRow : Nat)
    (ws : WS) (cols : List String) (hb : ws.bounds = some (a, b, c, d))
    (has : a ≤ startRow) (hb1 : b ≤ 1) (hcl : cols.length ≤ d) :
    (dateStyleWith et startRow ws cols).bounds = some (a, b, c, d) := by
  rw [dateStyleWith]
  cases hidx : firstIdxWhere (fun col => col == "Authorization Date") cols with
  | none => exact hb
  | some i =>
    have hilt : i < cols.length := by
      obtain ⟨x, hx, _⟩ := firstIdxWhere_get hidx
      by_contra hc
      rw [List.get?_eq_none.mpr (by omega)] at hx
      exact absurd hx (by simp)
    have hmr : wsMaxRow ws = c := by rw [wsMaxRow, hb]
    rw [hmr]
    refine foldl_inv_mem (fun (w : WS) => w.bounds = some (a, b, c, d)) _ _ _ hb ?_
    intro w r hr hw
    have hrr := (mem_natsFromTo startRow c r).mp hr
    by_cases hemp : et ((w.cells (r, i + 1)).value) = true
    · rw [if_pos hemp, setCentered, setFont, setValue, updateCell_bounds,
        updateCell_bounds, updateCell_bounds, hw, mergeRect_merge, mergeRect_merge]
      rw [rectUnion_self, rectUnion_self]
      exact mergeRect_absorb (by omega) (by omega) (by omega) (by omega)
    · rw [if_neg hemp, setFont, updateCell_bounds, hw]
      exact mergeRect_absorb (by omega) (by omega) (by omega) (by omega)

/-! ## Shape of the date-normalisation step and the build-level rectangles -/

theorem normalizeDatesDF_cols (df : DF) : (normalizeDatesDF df).cols = df.cols := by
  rw [normalizeDatesDF]
  cases hidx : firstIdxWhere (fun c => c == "Authorization Date") df.cols with
  | none => rfl
  | some di => rfl

theorem normalizeDatesDF_rows_length (df : DF) :
    (normalizeDatesDF df).rows.length = df.rows.length := by
  rw [normalizeDatesDF]
  cases hidx : firstIdxWhere (fun c => c == "Authorization Date") df.cols with
  | none => rfl
  | some di => simp

theorem enumMap_length {α β : Type} (f : Nat × α → β) (l : List α) (j : Nat) :
    ((enumFromL j l).map f).length = l.length := by
  rw [List.length_map, enumFromL_length]

theorem normalizeDatesDF_row_lengths (df : DF) (w : Nat)
    (hal : ∀ r ∈ df.rows, r.length = w) :
    ∀ r ∈ (normalizeDatesDF df).rows, r.length = w := by
  rw [normalizeDatesDF]
  cases hidx : firstIdxWhere (fun c => c == "Authorization Date") df.cols with
  | none => exact hal
  | some di =>
    intro r hr
    simp only [List.mem_map] at hr
    obtain ⟨r0, hr0, heq⟩ := hr
    rw [← heq, enumMap_length]
    exact hal r0 hr0

theorem build10415_rects (df : DF) (title : String) (hc : df.cols ≠ [])
    (hal : ∀ r ∈ df.rows, r.length = df.cols.length) :
    (buildWorkbook10415 df title).filterRef
        = some (2, 1, 3 + df.rows.length, df.cols.length) ∧
    (buildWorkbook10415 df title).bounds
        = some (2, 1, 3 + df.rows.length, df.cols.length) := by
  have hL : 1 ≤ df.cols.length := by
    cases hcc : df.cols with
    | nil => exact absurd hcc hc
    | cons x t => simp
  have hcols := normalizeDatesDF_cols df
  have hrlen := normalizeDatesDF_rows_length df
  have hrows := normalizeDatesDF_row_lengths df df.cols.length hal
  have hcne : (normalizeDatesDF df).cols ≠ [] := by rw [hcols]; exact hc
  have hb1 : (writeHeader10415 emptyWS (normalizeDatesDF df).cols).bounds
      = some (3, 1, 3, df.cols.length) := by
    rw [writeHeader10415_bounds _ _ hcne, hcols]
    rfl
  have hb2 : (writeRowsFrom (writeHeader10415 emptyWS (normalizeDatesDF df).cols) 4
      (normalizeDatesDF df).rows).bounds
      = some (3, 1, 3 + df.rows.length, df.cols.length) := by
    cases hrr : (normalizeDatesDF df).rows with
    | nil =>
      have hzero : df.rows.length = 0 := by rw [← hrlen, hrr]; rfl
      show (writeHeader10415 emptyWS (normalizeDatesDF df).cols).bounds = _
      rw [hb1, hzero]
    | cons row rest =>
      have hne : (normalizeDatesDF df).rows ≠ [] := by rw [hrr]; simp
      have hNpos : 1 ≤ df.rows.length := by
        rw [← hrlen, hrr]
        simp
      rw [← hrr]
      rw [writeRowsFrom_bounds df.cols.length hL (normalizeDatesDF df).rows
        hrows hne 4 _, hb1, hrlen]
      simp only [mergeRect, rectUnion, Option.some.injEq, Prod.mk.injEq]
      omega
  have hb3 : (mergeTitleRow (writeRowsFrom (writeHeader10415 emptyWS
      (normalizeDatesDF df).cols) 4 (normalizeDatesDF df).rows) 2
      (normalizeDatesDF df).cols.length title).bounds
      = some (2, 1, 3 + df.rows.length, df.cols.length) := by
    rw [mergeTitleRow_bounds _ _ _ _ (by rw [hcols]; exact hL), hb2, hcols]
    simp only [mergeRect, rectUnion, Option.some.injEq, Prod.mk.injEq]
    omega
  have hb4 : (applyBorders (mergeTitleRow (writeRowsFrom (writeHeader10415 emptyWS
      (normalizeDatesDF df).cols) 4 (normalizeDatesDF df).rows) 2
      (normalizeDatesDF df).cols.length title) 2).bounds
      = some (2, 1, 3 + df.rows.length, df.cols.length) :=
    applyBorders_bounds _ 2 hb3 (by omega) (by omega) hL
  constructor
  · exact hb4
  · show (dateStyleWith emptyVal10415 4 _ (normalizeDatesDF df).cols).bounds = _
    refine dateStyle_bounds _ _ _ _ hb4 (by omega) (by omega) ?_
    rw [hcols]

theorem buildGehs_rects (df : DF) (title : String) (hc : df.cols ≠ [])
    (hal : ∀ r ∈ df.rows, r.length = df.cols.length) :
    (buildWorkbookGehs df title).filterRef
        = some (2, 1, 2 + df.rows.length, df.cols.length) ∧
    (buildWorkbookGehs df title).bounds
        = some (1, 1, 2 + df.rows.length, df.cols.length) := by
  have hL : 1 ≤ df.cols.length := by
    cases hcc : df.cols with
    | nil => exact absurd hcc hc
    | cons x t => simp
  have hcols := normalizeDatesDF_cols df
  have hrlen := normalizeDatesDF_rows_length df
  have hrows := normalizeDatesDF_row_lengths df df.cols.length hal
  have hb1 : (writeRow emptyWS 2 ((normalizeDatesDF df).cols.map some)).bounds
      = some (2, 1, 2, df.cols.length) := by
    rw [writeRow_bounds _ _ _ (by rw [hcols]; cases hcc : df.cols with
        | nil => exact absurd hcc hc
        | cons x t => simp)]
    rw [List.length_map, hcols]
    rfl
  have hb2 : (writeRowsFrom (writeRow emptyWS 2 ((normalizeDatesDF df).cols.map some)) 3
      (normalizeDatesDF df).rows).bounds
      = some (2, 1, 2 + df.rows.length, df.cols.length) := by
    cases hrr : (normalizeDatesDF df).rows with
    | nil =>
      have hzero : df.rows.length = 0 := by rw [← hrlen, hrr]; rfl
      show (writeRow emptyWS 2 ((normalizeDatesDF df).cols.map some)).bounds = _
      rw [hb1, hzero]
    | cons row rest =>
      have hne : (normalizeDatesDF df).rows ≠ [] := by rw [hrr]; simp
      have hNpos : 1 ≤ df.rows.length := by
        rw [← hrlen, hrr]
        simp
      rw [← hrr]
      rw [writeRowsFrom_bounds df.cols.length hL (normalizeDatesDF df).rows
        hrows hne 3 _, hb1, hrlen]
      simp only [mergeRect, rectUnion, Option.some.injEq, Prod.mk.injEq]
      omega
  have hwmc : wsMaxCol (styleHeaderGehs (writeRowsFrom (writeRow emptyWS 2
      ((normalizeDatesDF df).cols.map some)) 3 (normalizeDatesDF df).rows))
      = df.cols.length := by
    rw [wsMaxCol, styleHeaderGehs_bounds _ hb2 (by omega) (by omega) (by omega) hL]
  have hb3 : (styleHeaderGehs (writeRowsFrom (writeRow emptyWS 2
      ((normalizeDatesDF df).cols.map some)) 3 (normalizeDatesDF df).rows)).bounds
      = some (2, 1, 2 + df.rows.length, df.cols.length) :=
    styleHeaderGehs_bounds _ hb2 (by omega) (by omega) (by omega) hL
  have hb4 : (mergeTitleRow (styleHeaderGehs (writeRowsFrom (writeRow emptyWS 2
      ((normalizeDatesDF df).cols.map some)) 3 (normalizeDatesDF df).rows)) 1
      (wsMaxCol (styleHeaderGehs (writeRowsFrom (writeRow emptyWS 2
      ((normalizeDatesDF df).cols.map some)) 3 (normalizeDatesDF df).rows))) title).bounds
      = some (1, 1, 2 + df.rows.length, df.cols.length) := by
    rw [mergeTitleRow_bounds _ _ _ _ (by rw [hwmc]; exact hL), hb3, hwmc]
    simp only [mergeRect, rectUnion, Option.some.injEq, Prod.mk.injEq]
    omega
  have hb5 : (applyBorders (mergeTitleRow (styleHeaderGehs (writeRowsFrom (writeRow
      emptyWS 2 ((normalizeDatesDF df).cols.map some)) 3 (normalizeDatesDF df).rows)) 1
      (wsMaxCol (styleHeaderGehs (writeRowsFrom (writeRow emptyWS 2
      ((normalizeDatesDF df).cols.map some)) 3 (normalizeDatesDF df).rows))) title) 1).bounds
      = some (1, 1, 2 + df.rows.length, df.cols.length) :=
    applyBorders_bounds _ 1 hb4 (by omega) (by omega) hL
  constructor
  · exact hb3
  · show (dateStyleWith emptyValGehs 3 _ (normalizeDatesDF df).cols).bounds = _
    refine dateStyle_bounds _ _ _ _ hb5 (by omega) (by omega) ?_
    rw [hcols]

/-- Counterexample for C3: on a one-column one-row frame the 10415 renderer
captures the autofilter as the sheet dimensions, rows 2 through 4 — row 2 is
the merged title row and the header row is row 3, so the filter range starts
one row above the header, contradicting the claim that it starts exactly at
the header row for every rendered workbook. -/
theorem C3_counterexample :
    (buildWorkbook10415 ⟨["PID"], [[some "7"]]⟩ "T").filterRef
        = some (2, 1, 4, 1) ∧ (2 : Nat) ≠ 3 := by
  exact ⟨rfl, by omega⟩

/-- C3 (corrected): in the gehs variant the autofilter is captured before
the title row exists, so it starts exactly at the header row (sheet row 2)
and spans through the last data row across all columns; in the 10415
variant the autofilter is the full used range, which starts at the title
row (sheet row 2), one row above the header row (sheet row 3), and spans
through the last data row across all columns. -/
theorem C3_amended_autofilter :
    ∀ (df : DF) (title : String), df.cols ≠ [] →
      (∀ r ∈ df.rows, r.length = df.cols.length) →
      (buildWorkbookGehs df title).filterRef
          = some (2, 1, 2 + df.rows.length, df.cols.length) ∧
      (buildWorkbook10415 df title).filterRef
          = some (2, 1, 3 + df.rows.length, df.cols.length) :=
  fun df title hc hal =>
    ⟨(buildGehs_rects df title hc hal).1, (build10415_rects df title hc hal).1⟩

/-- Witness for C3: the amended autofilter ranges on a concrete
two-column one-row frame. -/
theorem C3_amended_witness :
    (buildWorkbookGehs ⟨["PID", "Center"], [[some "1", some "c"]]⟩ "T").filterRef
        = some (2, 1, 3, 2) ∧
    (buildWorkbook10415 ⟨["PID", "Center"], [[some "1", some "c"]]⟩ "T").filterRef
        = some (2, 1, 4, 2) :=
  ⟨(C3_amended_autofilter ⟨["PID", "Center"], [[some "1", some "c"]]⟩ "T"
      (by decide) (by decide)).1,
   (C3_amended_autofilter ⟨["PID", "Center"], [[some "1", some "c"]]⟩ "T"
      (by decide) (by decide)).2⟩

/-! ## Cell states of the rendered header row -/

theorem cells_setValue_ne (ws : WS) (r c : Nat) (v : Cell) (p : Nat × Nat)
    (h : p ≠ (r, c)) : (setValue ws r c v).cells p = ws.cells p := by
  simp [setValue, updateCell_cells, h]

theorem cells_setFont_ne (ws : WS) (r c : Nat) (f : FontSpec) (p : Nat × Nat)
    (h : p ≠ (r, c)) : (setFont ws r c f).cells p = ws.cells p := by
  simp [setFont, updateCell_cells, h]

theorem cells_setCentered_ne (ws : WS) (r c : Nat) (p : Nat × Nat)
    (h : p ≠ (r, c)) : (setCentered ws r c).cells p = ws.cells p := by
  simp [setCentered, updateCell_cells, h]

theorem touchRow_cells (ws : WS) (row ncols : Nat) (p : Nat × Nat) :
    ((natsFromTo 1 ncols).foldl (fun w c => touchCell w row c) ws).cells p
      = ws.cells p := by
  have h := countFold_cells row (fun _ s => s) ncols 1 ws p
  simp only [ite_self] at h
  exact h

theorem mergeTitleRow_cells_frame (ws : WS) (row ncols : Nat) (title : String)
    (p : Nat × Nat) (hp : p.1 ≠ row) :
    (mergeTitleRow ws row ncols title).cells p = ws.cells p := by
  have hne : p ≠ (row, 1) := by
    intro hc
    exact hp (by rw [hc])
  show (setCentered (setFont (setValue ((natsFromTo 1 ncols).foldl
    (fun w c => touchCell w row c) ws) row 1 (some title)) row 1 _) row 1).cells p = _
  rw [cells_setCentered_ne _ _ _ _ hne, cells_setFont_ne _ _ _ _ _ hne,
    cells_setValue_ne _ _ _ _ _ hne, touchRow_cells]

theorem writeRow_cells_at (ws : WS) (r : Nat) (cs : List Cell) (j : Nat) (v : Cell)
    (h : cs.get? j = some v) :
    (writeRow ws r cs).cells (r, 1 + j) = { ws.cells (r, 1 + j) with value := v } :=
  enumFold_cells_at r (fun (v' : Cell) s => { s with value := v' }) cs j 1 ws v h

theorem writeHeader10415_cells_at (ws : WS) (cols : List String) (j : Nat)
    (c : String) (h : cols.get? j = some c) :
    (writeHeader10415 ws cols).cells (3, 1 + j)
      = hdrUpd10415 c (ws.cells (3, 1 + j)) := by
  rw [writeHeader10415_form]
  exact enumFold_cells_at 3 hdrUpd10415 cols j 1 ws c h

theorem styleHeaderGehs_cells (ws : WS) (p : Nat × Nat) :
    (styleHeaderGehs ws).cells p
      = if p.1 = 2 ∧ 1 ≤ p.2 ∧ p.2 < 1 + wsMaxCol ws
        then hdrUpdGehs (ws.cells p) else ws.cells p := by
  rw [styleHeaderGehs_form]
  exact countFold_cells 2 (fun _ => hdrUpdGehs) (wsMaxCol ws) 1 ws p

theorem borderRows_cells (C : Nat) (bs : Nat → Nat → BorderSpec) :
    ∀ (mrows r0 : Nat) (ws : WS) (p : Nat × Nat),
      ((countUp r0 mrows).foldl (fun w r =>
          (natsFromTo 1 C).foldl (fun w' k => setBorder w' r k (bs r k)) w) ws).cells p
        = if r0 ≤ p.1 ∧ p.1 < r0 + mrows ∧ 1 ≤ p.2 ∧ p.2 < 1 + C
          then { ws.cells p with border := some (bs p.1 p.2) } else ws.cells p := by
  intro mrows
  induction mrows with
  | zero =>
    intro r0 ws p
    rw [if_neg (by omega)]
    rfl
  | succ m ih =>
    intro r0 ws p
    obtain ⟨p1, p2⟩ := p
    show ((countUp (r0 + 1) m).foldl _ ((natsFromTo 1 C).foldl
      (fun w' k => setBorder w' r0 k (bs r0 k)) ws)).cells _ = _
    rw [ih (r0 + 1) _ (p1, p2)]
    have h : ((natsFromTo 1 C).foldl (fun w' k => setBorder w' r0 k (bs r0 k)) ws).cells (p1, p2)
        = if (p1, p2).1 = r0 ∧ 1 ≤ (p1, p2).2 ∧ (p1, p2).2 < 1 + C
          then { ws.cells (p1, p2) with border := some (bs r0 (p1, p2).2) }
          else ws.cells (p1, p2) :=
      countFold_cells r0 (fun k s => { s with border := some (bs r0 k) }) C 1 ws (p1, p2)
    have hinner : ((natsFromTo 1 C).foldl (fun w' k => setBorder w' r0 k (bs r0 k)) ws).cells (p1, p2)
        = if p1 = r0 ∧ 1 ≤ p2 ∧ p2 < 1 + C
          then { ws.cells (p1, p2) with border := some (bs p1 p2) }
          else ws.cells (p1, p2) := by
      by_cases hcond : p1 = r0 ∧ 1 ≤ p2 ∧ p2 < 1 + C
      · rw [if_pos hcond, h, if_pos hcond, hcond.1]
      · rw [if_neg hcond, h, if_neg hcond]
    rw [hinner]
    by_cases houter : r0 + 1 ≤ p1 ∧ p1 < r0 + 1 + m ∧ 1 ≤ p2 ∧ p2 < 1 + C
    · rw [if_pos houter, if_neg (by omega), if_pos (by omega)]
    · rw [if_neg houter]
      by_cases hcond : p1 = r0 ∧ 1 ≤ p2 ∧ p2 < 1 + C
      · rw [if_pos hcond, if_pos (by omega)]
      · rw [if_neg hcond, if_neg (by omega)]

theorem applyBorders_cells (ws : WS) (topRow : Nat) (p : Nat × Nat) :
    (applyBorders ws topRow).cells p
      = if topRow ≤ p.1 ∧ p.1 < topRow + (wsMaxRow ws + 1 - topRow) ∧
          1 ≤ p.2 ∧ p.2 < 1 + wsMaxCol ws
        then { ws.cells p with
            border := some (borderSpecFor topRow (wsMaxRow ws) (wsMaxCol ws) p.1 p.2) }
        else ws.cells p :=
  borderRows_cells (wsMaxCol ws)
    (fun r c => borderSpecFor topRow (wsMaxRow ws) (wsMaxCol ws) r c)
    (wsMaxRow ws + 1 - topRow) topRow ws p

theorem dateStyle_id_of_lt (et : Cell → Bool) (startRow : Nat) (ws : WS)
    (cols : List String) (h : wsMaxRow ws < startRow) :
    dateStyleWith et startRow ws cols = ws := by
  rw [dateStyleWith]
  cases hidx : firstIdxWhere (fun c => c == "Authorization Date") cols with
  | none => rfl
  | some i =>
    show ((countUp startRow (wsMaxRow ws + 1 - startRow)).foldl _ ws) = ws
    have hz : wsMaxRow ws + 1 - startRow = 0 := by omega
    rw [hz]
    rfl

theorem normalizeDatesDF_empty (cols : List String) :
    normalizeDatesDF ⟨cols, []⟩ = ⟨cols, []⟩ := by
  simp only [normalizeDatesDF]
  cases hidx : firstIdxWhere (fun c => c == "Authorization Date")
      (DF.mk cols []).cols with
  | none => simp
  | some di => simp

theorem get?_lt_length {α : Type} {l : List α} {j : Nat} {a : α}
    (h : l.get? j = some a) : j < l.length := by
  by_contra hc
  rw [List.get?_eq_none.mpr (by omega)] at h
  exact absurd h (by simp)

/-! ## Claim C8: rendering an empty RecordSet -/

/-- Counterexample for C8: on an empty RecordSet the 10415 renderer
captures the autofilter over rows 2 through 3 — the merged title row plus
the header row — not over only the header row (row 3), which would be the
range `some (3, 1, 3, 2)` here. -/
theorem C8_counterexample :
    (buildWorkbook10415 ⟨["PID", "Center"], []⟩ "T").filterRef = some (2, 1, 3, 2) ∧
    (buildWorkbook10415 ⟨["PID", "Center"], []⟩ "T").filterRef ≠ some (3, 1, 3, 2) := by
  exact ⟨rfl, by decide⟩

theorem build10415_empty_cells (cols : List String) (title : String)
    (hc : cols ≠ []) (j : Nat) (c : String) (h : cols.get? j = some c) :
    (buildWorkbook10415 ⟨cols, []⟩ title).cells (3, 1 + j)
      = { value := some c, fill := some BLUE10415,
          font := some { bold := true, color := some WHITE, size := none },
          centered := true,
          border := some
            { leftMed := 1 + j == 1,
              rightMed := 1 + j == cols.length,
              topMed := false,
              bottomMed := true } } := by
  have hL : 1 ≤ cols.length := by
    cases hcc : cols with
    | nil => exact absurd hcc hc
    | cons x t => simp
  have hj : j < cols.length := get?_lt_length h
  have hn : normalizeDatesDF ⟨cols, []⟩ = ⟨cols, []⟩ := normalizeDatesDF_empty cols
  show (dateStyleWith emptyVal10415 4
      (applyBorders (mergeTitleRow (writeRowsFrom (writeHeader10415 emptyWS
        (normalizeDatesDF ⟨cols, []⟩).cols) 4 (normalizeDatesDF ⟨cols, []⟩).rows) 2
        (normalizeDatesDF ⟨cols, []⟩).cols.length title) 2)
      (normalizeDatesDF ⟨cols, []⟩).cols).cells (3, 1 + j) = _
  rw [hn]
  show (dateStyleWith emptyVal10415 4
      (applyBorders (mergeTitleRow (writeHeader10415 emptyWS cols) 2
        cols.length title) 2) cols).cells (3, 1 + j) = _
  have hb1 : (writeHeader10415 emptyWS cols).bounds = some (3, 1, 3, cols.length) := by
    rw [writeHeader10415_bounds _ _ hc]
    rfl
  have hb3 : (mergeTitleRow (writeHeader10415 emptyWS cols) 2
      cols.length title).bounds = some (2, 1, 3, cols.length) := by
    rw [mergeTitleRow_bounds _ _ _ _ hL, hb1]
    simp only [mergeRect, rectUnion, Option.some.injEq, Prod.mk.injEq]
    omega
  have hmr3 : wsMaxRow (mergeTitleRow (writeHeader10415 emptyWS cols) 2
      cols.length title) = 3 := by
    rw [wsMaxRow, hb3]
  have hmc3 : wsMaxCol (mergeTitleRow (writeHeader10415 emptyWS cols) 2
      cols.length title) = cols.length := by
    rw [wsMaxCol, hb3]
  have hb4 : (applyBorders (mergeTitleRow (writeHeader10415 emptyWS cols) 2
      cols.length title) 2).bounds = some (2, 1, 3, cols.length) :=
    applyBorders_bounds _ 2 hb3 (by omega) (by omega) hL
  have hmr4 : wsMaxRow (applyBorders (mergeTitleRow (writeHeader10415 emptyWS cols) 2
      cols.length title) 2) = 3 := by
    rw [wsMaxRow, hb4]
  rw [dateStyle_id_of_lt _ _ _ _ (by omega)]
  rw [applyBorders_cells, hmr3, hmc3]
  have hcond : (2 : Nat) ≤ 3 ∧ 3 < 2 + (3 + 1 - 2) ∧ 1 ≤ 1 + j ∧
      1 + j < 1 + cols.length := by omega
  rw [if_pos hcond]
  rw [mergeTitleRow_cells_frame _ _ _ _ _ (by omega)]
  rw [writeHeader10415_cells_at emptyWS cols j c h]
  show ({ hdrUpd10415 c blankCell with
      border := some (borderSpecFor 2 3 cols.length 3 (1 + j)) } : CellState) = _
  rw [show borderSpecFor 2 3 cols.length 3 (1 + j)
      = { leftMed := 1 + j == 1,
          rightMed := 1 + j == cols.length,
          topMed := false,
          bottomMed := true } from by
    rw [borderSpecFor]
    rfl]
  rfl

theorem buildGehs_empty_cells (cols : List String) (title : String)
    (hc : cols ≠ []) (j : Nat) (c : String) (h : cols.get? j = some c) :
    (buildWorkbookGehs ⟨cols, []⟩ title).cells (2, 1 + j)
      = { value := some c, fill := some BLUEGEHS,
          font := some { bold := true, color := some WHITE, size := none },
          centered := true,
          border := some
            { leftMed := 1 + j == 1,
              rightMed := 1 + j == cols.length,
              topMed := false,
              bottomMed := true } } := by
  have hL : 1 ≤ cols.length := by
    cases hcc : cols with
    | nil => exact absurd hcc hc
    | cons x t => simp
  have hj : j < cols.length := get?_lt_length h
  have hn : normalizeDatesDF ⟨cols, []⟩ = ⟨cols, []⟩ := normalizeDatesDF_empty cols
  show (dateStyleWith emptyValGehs 3
      (applyBorders (mergeTitleRow (styleHeaderGehs (writeRowsFrom (writeRow emptyWS 2
        ((normalizeDatesDF ⟨cols, []⟩).cols.map some)) 3 (normalizeDatesDF ⟨cols, []⟩).rows)) 1
        (wsMaxCol (styleHeaderGehs (writeRowsFrom (writeRow emptyWS 2
          ((normalizeDatesDF ⟨cols, []⟩).cols.map some)) 3
          (normalizeDatesDF ⟨cols, []⟩).rows))) title) 1)
      (normalizeDatesDF ⟨cols, []⟩).cols).cells (2, 1 + j) = _
  rw [hn]
  show (dateStyleWith emptyValGehs 3
      (applyBorders (mergeTitleRow (styleHeaderGehs (writeRow emptyWS 2
        (cols.map some))) 1
        (wsMaxCol (styleHeaderGehs (writeRow emptyWS 2 (cols.map some)))) title) 1)
      cols).cells (2, 1 + j) = _
  have hb1 : (writeRow emptyWS 2 (cols.map some)).bounds
      = some (2, 1, 2, cols.length) := by
    rw [writeRow_bounds _ _ _ (by simp [hc]), List.length_map]
    rfl
  have hmc1 : wsMaxCol (writeRow emptyWS 2 (cols.map some)) = cols.length := by
    rw [wsMaxCol, hb1]
  have hcell1 : (writeRow emptyWS 2 (cols.map some)).cells (2, 1 + j)
      = { blankCell with value := some c } := by
    rw [writeRow_cells_at emptyWS 2 (cols.map some) j (some c) (by
      rw [List.get?_map, h]
      rfl)]
    rfl
  have hb3 : (styleHeaderGehs (writeRow emptyWS 2 (cols.map some))).bounds
      = some (2, 1, 2, cols.length) :=
    styleHeaderGehs_bounds _ hb1 (by omega) (by omega) (by omega) hL
  have hmc3 : wsMaxCol (styleHeaderGehs (writeRow emptyWS 2 (cols.map some)))
      = cols.length := by
    rw [wsMaxCol, hb3]
  have hcell3 : (styleHeaderGehs (writeRow emptyWS 2 (cols.map some))).cells (2, 1 + j)
      = hdrUpdGehs { blankCell with value := some c } := by
    rw [styleHeaderGehs_cells, hmc1]
    have hcond1 : (2 : Nat) = 2 ∧ 1 ≤ 1 + j ∧ 1 + j < 1 + cols.length := by omega
    rw [if_pos hcond1, hcell1]
  have hb4 : (mergeTitleRow (styleHeaderGehs (writeRow emptyWS 2 (cols.map some))) 1
      (wsMaxCol (styleHeaderGehs (writeRow emptyWS 2 (cols.map some)))) title).bounds
      = some (1, 1, 2, cols.length) := by
    rw [mergeTitleRow_bounds _ _ _ _ (by rw [hmc3]; exact hL), hmc3, hb3]
    simp only [mergeRect, rectUnion, Option.some.injEq, Prod.mk.injEq]
    omega
  have hmr4 : wsMaxRow (mergeTitleRow (styleHeaderGehs (writeRow emptyWS 2
      (cols.map some))) 1
      (wsMaxCol (styleHeaderGehs (writeRow emptyWS 2 (cols.map some)))) title) = 2 := by
    rw [wsMaxRow, hb4]
  have hmc4 : wsMaxCol (mergeTitleRow (styleHeaderGehs (writeRow emptyWS 2
      (cols.map some))) 1
      (wsMaxCol (styleHeaderGehs (writeRow emptyWS 2 (cols.map some)))) title)
      = cols.length := by
    rw [wsMaxCol, hb4]
  have hb5 : (applyBorders (mergeTitleRow (styleHeaderGehs (writeRow emptyWS 2
      (cols.map some))) 1
      (wsMaxCol (styleHeaderGehs (writeRow emptyWS 2 (cols.map some)))) title) 1).bounds
      = some (1, 1, 2, cols.length) :=
    applyBorders_bounds _ 1 hb4 (by omega) (by omega) hL
  have hmr5 : wsMaxRow (applyBorders (mergeTitleRow (styleHeaderGehs (writeRow emptyWS 2
      (cols.map some))) 1
      (wsMaxCol (styleHeaderGehs (writeRow emptyWS 2 (cols.map some)))) title) 1) = 2 := by
    rw [wsMaxRow, hb5]
  rw [dateStyle_id_of_lt _ _ _ _ (by omega)]
  rw [applyBorders_cells, hmr4, hmc4]
  have hcond : (1 : Nat) ≤ 2 ∧ 2 < 1 + (2 + 1 - 1) ∧ 1 ≤ 1 + j ∧
      1 + j < 1 + cols.length := by omega
  rw [if_pos hcond]
  rw [mergeTitleRow_cells_frame _ _ _ _ _ (by omega), hcell3]
  show ({ hdrUpdGehs { blankCell with value := some c } with
      border := some (borderSpecFor 1 2 cols.length 2 (1 + j)) } : CellState) = _
  rw [show borderSpecFor 1 2 cols.length 2 (1 + j)
      = { leftMed := 1 + j == 1,
          rightMed := 1 + j == cols.length,
          topMed := false,
          bottomMed := true } from by
    rw [borderSpecFor]
    rfl]
  rfl

/-- C8 (corrected): rendering an empty RecordSet does not fail — both
renderers are total — and produces the styled header row (label values,
solid fill, bold white centered font, and the border grid with medium outer
edges) over zero data rows: the sheet bounds stop at the header row.  The
autofilter covers only the header row (row 2) in the gehs variant, as the
claim demands, but in the 10415 variant it covers the title row and the
header row (rows 2 through 3), not only the header row. -/
theorem C8_amended_empty_recordset :
    ∀ (cols : List String) (title : String), cols ≠ [] →
      ((buildWorkbook10415 ⟨cols, []⟩ title).filterRef = some (2, 1, 3, cols.length) ∧
        (buildWorkbook10415 ⟨cols, []⟩ title).bounds = some (2, 1, 3, cols.length) ∧
        ∀ j c, cols.get? j = some c →
          (buildWorkbook10415 ⟨cols, []⟩ title).cells (3, 1 + j)
            = { value := some c, fill := some BLUE10415,
                font := some { bold := true, color := some WHITE, size := none },
                centered := true,
                border := some
                  { leftMed := 1 + j == 1,
                    rightMed := 1 + j == cols.length,
                    topMed := false,
                    bottomMed := true } }) ∧
      ((buildWorkbookGehs ⟨cols, []⟩ title).filterRef = some (2, 1, 2, cols.length) ∧
        (buildWorkbookGehs ⟨cols, []⟩ title).bounds = some (1, 1, 2, cols.length) ∧
        ∀ j c, cols.get? j = some c →
          (buildWorkbookGehs ⟨cols, []⟩ title).cells (2, 1 + j)
            = { value := some c, fill := some BLUEGEHS,
                font := some { bold := true, color := some WHITE, size := none },
                centered := true,
                border := some
                  { leftMed := 1 + j == 1,
                    rightMed := 1 + j == cols.length,
                    topMed := false,
                    bottomMed := true } }) := by
  intro cols title hc
  refine ⟨⟨?_, ?_, ?_⟩, ?_, ?_, ?_⟩
  · exact (build10415_rects ⟨cols, []⟩ title hc (by simp)).1
  · exact (build10415_rects ⟨cols, []⟩ title hc (by simp)).2
  · intro j c h
    have := build10415_empty_cells cols title hc j c h
    rw [this]
  · exact (buildGehs_rects ⟨cols, []⟩ title hc (by simp)).1
  · exact (buildGehs_rects ⟨cols, []⟩ title hc (by simp)).2
  · intro j c h
    have := buildGehs_empty_cells cols title hc j c h
    rw [this]

/-- Witness for C8: the amended theorem on a concrete one-column empty
RecordSet, yielding the two filter ranges and the styled header cell. -/
theorem C8_amended_witness :
    (buildWorkbook10415 ⟨["PID"], []⟩ "T").filterRef = some (2, 1, 3, 1) ∧
    (buildWorkbookGehs ⟨["PID"], []⟩ "T").filterRef = some (2, 1, 2, 1) ∧
    (buildWorkbook10415 ⟨["PID"], []⟩ "T").cells (3, 1)
      = { value := some "PID", fill := some BLUE10415,
          font := some { bold := true, color := some WHITE, size := none },
          centered := true,
          border := some
            { leftMed := true,
              rightMed := true,
              topMed := false,
              bottomMed := true } } :=
  ⟨(C8_amended_empty_recordset ["PID"] "T" (by decide)).1.1,
   (C8_amended_empty_recordset ["PID"] "T" (by decide)).2.1,
   (C8_amended_empty_recordset ["PID"] "T" (by decide)).1.2.2 0 "PID" rfl⟩

end Authz
